import Mathlib

/-!
Verification of the Arabic real-estate dialogue agent.

This file gives a shallow embedding of the agent's core (text normalization,
entity/preference extraction, intent and sentiment classification, the phase
state machine, knowledge retrieval and the per-turn agent controller) and
proves or refutes the frozen behavioural claims about it.

Python strings are modelled as `List Char`; Python dicts holding the user
profile are modelled as insertion-ordered association lists.  Machine text
processing (regular expressions) is hand-translated pattern by pattern into
recursive scanning functions; each definition carries the pattern it embeds.
-/

set_option maxRecDepth 4000
set_option maxHeartbeats 1600000

namespace RealEstate

/-- Python strings are lists of unicode characters. -/
abbrev Str := List Char

/-- Coerce a Lean string literal to the character-list representation. -/
def str (s : String) : Str := s.data

/-- The set of characters matched by Python's regex class `\s` (and stripped
by `str.strip()`) on unicode strings. -/
def pySpace (c : Char) : Bool :=
  c = ' ' || c = '\t' || c = '\n' || c = '\r' || c.toNat == 0x0B || c.toNat == 0x0C ||
  (0x1C ≤ c.toNat && c.toNat ≤ 0x1F) || c.toNat == 0x85 || c.toNat == 0xA0 ||
  c.toNat == 0x1680 || (0x2000 ≤ c.toNat && c.toNat ≤ 0x200A) ||
  c.toNat == 0x2028 || c.toNat == 0x2029 || c.toNat == 0x202F ||
  c.toNat == 0x205F || c.toNat == 0x3000

/-- Python's `str.lower()`, per character; it is the identity on Arabic script
and lower-cases ASCII letters, which is all the agent's inputs use. -/
def pyLower (c : Char) : Char := c.toLower

/-- Python's `needle in haystack` substring test. -/
def strContains (hay needle : Str) : Bool :=
  needle.isPrefixOf hay ||
    match hay with
    | [] => false
    | _ :: t => strContains t needle

/-- Python's `str.strip()`: drop leading and trailing whitespace. -/
def pyStrip (l : Str) : Str :=
  ((l.dropWhile pySpace).reverse.dropWhile pySpace).reverse

/-- Fuel-driven worker for `pySplit` (the fuel, one beyond the input length,
never runs out because every step consumes at least one character). -/
def pySplitGo : Nat → Str → List Str
  | 0, _ => []
  | _, [] => []
  | fuel + 1, c :: rest =>
    if pySpace c then pySplitGo fuel rest
    else
      (c :: rest.takeWhile (fun d => !pySpace d)) ::
        pySplitGo fuel (rest.dropWhile (fun d => !pySpace d))

/-- Python's `str.split()` with no argument: maximal runs of non-whitespace. -/
def pySplit (l : Str) : List Str := pySplitGo (l.length + 1) l

/-! ## normalize_arabic_text (arabic_nlp_helpers.py lines 25-60) -/

/-- Arabic diacritic code points removed by `re.sub(r'[ً-ٰٟ]', '', text)`. -/
def isDiacriticChar (c : Char) : Bool :=
  (0x64B ≤ c.toNat && c.toNat ≤ 0x65F) || c.toNat == 0x670

/-- Embeds `re.sub(r'[إأآا]', 'ا', text)`. -/
def mapAlef (c : Char) : Char :=
  if c = 'إ' ∨ c = 'أ' ∨ c = 'آ' ∨ c = 'ا' then 'ا' else c

/-- Embeds `re.sub(r'[ؤئ]', 'ء', text)`. -/
def mapHamza (c : Char) : Char :=
  if c = 'ؤ' ∨ c = 'ئ' then 'ء' else c

/-- Embeds `text.replace('ة', 'ه')`. -/
def mapTeh (c : Char) : Char :=
  if c = 'ة' then 'ه' else c

/-- Embeds `re.sub(r'[يى]', 'ي', text)`. -/
def mapYeh (c : Char) : Char :=
  if c = 'ي' ∨ c = 'ى' then 'ي' else c

/-- Characters kept by `re.sub(r'[^؀-ۿ\s0-9]', ' ', text)`. -/
def keepChar (c : Char) : Bool :=
  (0x600 ≤ c.toNat && c.toNat ≤ 0x6FF) || pySpace c || ('0' ≤ c && c ≤ '9')

/-- Embeds `re.sub(r'[^؀-ۿ\s0-9]', ' ', text)`, per character. -/
def maskChar (c : Char) : Char :=
  if keepChar c then c else ' '

/-- The full per-character transformation of `normalize_arabic_text` after the
diacritics filter (the four letter normalizations followed by the
non-Arabic masking). -/
def normChar (c : Char) : Char :=
  maskChar (mapYeh (mapTeh (mapHamza (mapAlef c))))

/-- Embeds `re.sub(r'\s+', ' ', text)`: every maximal whitespace run becomes
one space. -/
def squeezeSpaces : Str → Str
  | [] => []
  | [c] => if pySpace c then [' '] else [c]
  | c1 :: c2 :: rest =>
    if pySpace c1 && pySpace c2 then squeezeSpaces (c2 :: rest)
    else (if pySpace c1 then ' ' else c1) :: squeezeSpaces (c2 :: rest)

/-- Embeds `normalize_arabic_text` from arabic_nlp_helpers.py: strip
diacritics, normalize alef/hamza/teh-marbuta/yeh variants, mask non-Arabic
non-digit characters to spaces, collapse whitespace runs and strip. -/
def normalize_arabic_text (t : Str) : Str :=
  if t = [] then []
  else pyStrip (squeezeSpaces ((t.filter (fun c => !isDiacriticChar c)).map normChar))

/-! ## The user-profile dictionary model -/

/-- A value stored in a Python dict of the agent: a string, a list of strings
(the features slot), or a whole listing record (the refers_to slot). -/
inductive Value where
  | vstr (s : Str)
  | vlist (l : List Str)
  | vprop (p : List (String × Str))
deriving DecidableEq

/-- A Python dict with string keys, modelled as an insertion-ordered
association list with unique keys. -/
abbrev Info := List (String × Value)

/-- Dict lookup (first binding of the key). -/
def Info.lookup : Info → String → Option Value
  | [], _ => none
  | (k, v) :: rest, key => if k = key then some v else Info.lookup rest key

/-- Python's `key in dict`. -/
def Info.hasKey (i : Info) (k : String) : Bool := (Info.lookup i k).isSome

/-- Python's `dict[key] = value`: replace in place, or append a new binding. -/
def Info.set : Info → String → Value → Info
  | [], k, v => [(k, v)]
  | (k', v') :: rest, k, v =>
    if k' = k then (k, v) :: rest else (k', v') :: Info.set rest k v

/-- Python's `base.update(delta)`. -/
def Info.update (base delta : Info) : Info :=
  delta.foldl (fun b kv => Info.set b kv.1 kv.2) base

/-- Python truthiness of a stored value (non-empty string / list / dict). -/
def truthyValue : Value → Bool
  | .vstr s => !s.isEmpty
  | .vlist l => !l.isEmpty
  | .vprop p => !p.isEmpty

/-- Python's `key in dict and dict[key]` combination. -/
def truthyOpt : Option Value → Bool
  | some v => truthyValue v
  | none => false

/-! ## Regex scanning machinery

Each Python regex of the source is hand-translated into a dedicated
scanning function; the generic drivers below reproduce `re.findall` /
`re.search` position handling (leftmost match, resume after the match). -/

/-- The regex class `[؀-ۿ\s]` used by capture groups. -/
def arabicOrSpace (c : Char) : Bool :=
  (0x600 ≤ c.toNat && c.toNat ≤ 0x6FF) || pySpace c

/-- Python regex `\w` (unicode word character), restricted to the code points
this pipeline can see: ASCII alphanumerics, underscore, and the letters and
digits of the Arabic block (combining marks and Arabic punctuation are not
word characters). -/
def isWordChar (c : Char) : Bool :=
  c.isAlphanum || c = '_' ||
  (0x620 ≤ c.toNat && c.toNat ≤ 0x64A) || (0x660 ≤ c.toNat && c.toNat ≤ 0x669) ||
  (0x66E ≤ c.toNat && c.toNat ≤ 0x66F) || (0x671 ≤ c.toNat && c.toNat ≤ 0x6D3) ||
  c.toNat == 0x6D5 || (0x6E5 ≤ c.toNat && c.toNat ≤ 0x6E6) ||
  (0x6EE ≤ c.toNat && c.toNat ≤ 0x6EF) || (0x6F0 ≤ c.toNat && c.toNat ≤ 0x6F9) ||
  (0x6FA ≤ c.toNat && c.toNat ≤ 0x6FC) || c.toNat == 0x6FF

/-- `re.findall` driver: try the matcher at each position left to right; on a
match emit its capture and resume after the matched text, else advance one
character.  The fuel is the input length plus one; every matcher used here
consumes at least one character on success, so the fuel never runs out. -/
def scanAll (matcher : Str → Option (Str × Str)) : Nat → Str → List Str
  | 0, _ => []
  | fuel + 1, l =>
    match matcher l with
    | some (a, r) => a :: scanAll matcher fuel r
    | none =>
      match l with
      | [] => []
      | _ :: t => scanAll matcher fuel t

/-- `re.search` driver: the leftmost position where the matcher succeeds. -/
def searchFirst (matcher : Str → Option α) : Str → Option α
  | [] => matcher []
  | c :: t =>
    match matcher (c :: t) with
    | some a => some a
    | none => searchFirst matcher t

/-- Matcher for the money regexes `(\d[\d,]*(?:\.\d+)?)\s*(?:unit|...)` at the
current position: returns the capture group and the rest of the input after
the match.  Greedy matching needs no backtracking here because no unit
alternative begins with a digit, comma, dot or whitespace character. -/
def moneyMatchAt (units : List Str) (l : Str) : Option (Str × Str) :=
  match l with
  | [] => none
  | c :: _ =>
    if c.isDigit then
      let digits := l.takeWhile (fun d => d.isDigit || d = ',')
      let rest1 := l.dropWhile (fun d => d.isDigit || d = ',')
      let fr :=
        match rest1 with
        | '.' :: r =>
          let ds := r.takeWhile Char.isDigit
          if ds.isEmpty then (([] : Str), rest1) else ('.' :: ds, r.drop ds.length)
        | _ => (([] : Str), rest1)
      let rest3 := fr.2.dropWhile pySpace
      match units.find? (fun u => u.isPrefixOf rest3) with
      | some u => some (digits ++ fr.1, rest3.drop u.length)
      | none => none
    else none

/-- Unit alternatives of the money regex in detect_arabic_entities
(arabic_nlp_helpers.py line 122). -/
def moneyUnitsDetect : List Str :=
  [str "ريال", str "الف", str "مليون", str "ألف", str "ر.س"]

/-- Unit alternatives of the money regex in rule_based_entity_extraction
(text_processing.py line 47), which adds the Egyptian currency word. -/
def moneyUnitsRule : List Str :=
  [str "ريال", str "الف", str "مليون", str "ألف", str "ر.س", str "جنيه"]

/-- All money matches of a text (`re.findall` on the money regex). -/
def moneyFindAll (units : List Str) (t : Str) : List Str :=
  scanAll (moneyMatchAt units) (t.length + 1) t

/-- Lazy capture for regexes of shape `(C+?)T`: the shortest non-empty run of
characters satisfying `cls` whose following text matches the terminator;
returns the capture and the rest of the input after the terminator. -/
def lazyCapture (cls : Char → Bool) (term : Str → Option Str) : Str → Option (Str × Str)
  | [] => none
  | c :: rest =>
    if cls c then
      match term rest with
      | some rem => some ([c], rem)
      | none =>
        match lazyCapture cls term rest with
        | some (g, rem) => some (c :: g, rem)
        | none => none
    else none

/-- Terminator `(?:\.|،|$|\s)` of the person patterns in
detect_arabic_entities; `$` (which also matches before a final newline)
consumes nothing. -/
def termDotCommaEndSpace : Str → Option Str
  | [] => some []
  | c :: rest =>
    if c = '.' then some rest
    else if c = '،' then some rest
    else if c = '\n' ∧ rest = [] then some (c :: rest)
    else if pySpace c then some rest
    else none

/-- Terminator `(?:\.|،|$|\s\w)` of the location and person patterns in
rule_based_entity_extraction. -/
def termDotCommaEndSpaceWord : Str → Option Str
  | [] => some []
  | c :: rest =>
    if c = '.' then some rest
    else if c = '،' then some rest
    else if c = '\n' ∧ rest = [] then some (c :: rest)
    else
      match rest with
      | c2 :: r => if pySpace c && isWordChar c2 then some r else none
      | [] => none

/-- Matcher for `lit([؀-ۿ\s]+?)term` at the current position. -/
def litLazyMatchAt (lit : Str) (term : Str → Option Str) (l : Str) : Option (Str × Str) :=
  if lit.isPrefixOf l then lazyCapture arabicOrSpace term (l.drop lit.length)
  else none

/-- Matcher for `(\d+)\s*lit` with an optional single trailing character
(`[ة]?`): digits, whitespace, the literal, then the optional character. -/
def digitsThenLit (lit : Str) (opt : Option Char) (l : Str) : Option (Str × Str) :=
  match l with
  | [] => none
  | c :: _ =>
    if c.isDigit then
      let ds := l.takeWhile Char.isDigit
      let rest1 := (l.dropWhile Char.isDigit).dropWhile pySpace
      if lit.isPrefixOf rest1 then
        let rest2 := rest1.drop lit.length
        match opt with
        | some oc =>
          match rest2 with
          | d :: r2 => if d = oc then some (ds, r2) else some (ds, rest2)
          | [] => some (ds, rest2)
        | none => some (ds, rest2)
      else none
    else none

/-- Matcher for `lit\s*(\d+)`. -/
def litThenDigits (lit : Str) (l : Str) : Option (Str × Str) :=
  if lit.isPrefixOf l then
    let rest1 := (l.drop lit.length).dropWhile pySpace
    match rest1 with
    | [] => none
    | c :: _ =>
      if c.isDigit then some (rest1.takeWhile Char.isDigit, rest1.dropWhile Char.isDigit)
      else none
  else none

/-- Fuel-driven worker for `numberRuns`. -/
def numberRunsGo : Nat → Option Char → Str → List Str
  | 0, _, _ => []
  | _, _, [] => []
  | fuel + 1, prev, c :: rest =>
    if c.isDigit && (match prev with | some p => !isWordChar p | none => true) then
      let ds := c :: rest.takeWhile Char.isDigit
      let rest1 := rest.dropWhile Char.isDigit
      if (match rest1 with | [] => true | d :: _ => !isWordChar d) then
        ds :: numberRunsGo fuel (some (ds.getLastD c)) rest1
      else numberRunsGo fuel (some (ds.getLastD c)) rest1
    else numberRunsGo fuel (some c) rest

/-- Embeds `re.findall(r'\b(\d+)\b', text)`: maximal digit runs both of whose
neighbours are absent or non-word characters (a digit run touching a letter
admits no word boundary at any of its sub-runs either). -/
def numberRuns (prev : Option Char) (l : Str) : List Str :=
  numberRunsGo (l.length + 1) prev l

/-! ## Entity extraction (arabic_nlp_helpers.py, text_processing.py) -/

/-- The entity mapping produced by the extractors.  Absent Python dict keys
are the empty list / `none`. -/
structure Entities where
  loc : List Str := []
  property_type : List Str := []
  money : List Str := []
  person : Option Value := none
  bedrooms : Option Str := none
  bathrooms : Option Str := none
  area : Option Str := none
  number : List Str := []
  feature : List Str := []
deriving DecidableEq

/-- Python emptiness of the entity dict (`if not entities`). -/
def Entities.isEmpty (e : Entities) : Bool :=
  e.loc.isEmpty && e.property_type.isEmpty && e.money.isEmpty && e.person.isNone &&
  e.bedrooms.isNone && e.bathrooms.isNone && e.area.isNone &&
  e.number.isEmpty && e.feature.isEmpty

/-- Saudi city gazetteer of detect_arabic_entities. -/
def saudiCities : List Str :=
  [str "الرياض", str "جدة", str "مكة", str "المدينة", str "الدمام", str "الخبر",
   str "الظهران", str "تبوك", str "أبها", str "القصيم", str "بريدة", str "نجران",
   str "جازان", str "حائل", str "عسير", str "الباحة", str "الجوف", str "عرعر",
   str "ينبع", str "الطائف"]

/-- Riyadh neighborhood gazetteer of detect_arabic_entities. -/
def riyadhNeighborhoods : List Str :=
  [str "النخيل", str "العليا", str "الملقا", str "الياسمين", str "الورود",
   str "الرحمانية", str "السليمانية", str "المروج", str "الربوة", str "العزيزية",
   str "الملز", str "النزهة", str "الفلاح", str "المصيف", str "الروضة",
   str "الشفا", str "الدرعية", str "المربع", str "البطحاء", str "الديرة",
   str "الخالدية", str "النسيم"]

/-- Property-type keys of detect_arabic_entities, in dict order. -/
def detectPropertyTypes : List Str :=
  [str "شقة", str "فيلا", str "منزل", str "دوبلكس", str "استوديو",
   str "بنتهاوس", str "محل", str "مكتب"]

/-- Person extraction of detect_arabic_entities: for each self-introduction
pattern, take the first match, split it on whitespace, use the first token
when longer than two characters, else try the next pattern. -/
def personFromPatterns : List Str → Str → Option Str
  | [], _ => none
  | lit :: rest, text =>
    match scanAll (litLazyMatchAt lit termDotCommaEndSpace) (text.length + 1) text with
    | [] => personFromPatterns rest text
    | g :: _ =>
      match pySplit g with
      | [] => personFromPatterns rest text
      | w :: _ => if w.length > 2 then some w else personFromPatterns rest text

/-- First `re.findall` result among a pattern list (used by the
bedrooms/bathrooms/area extraction loops). -/
def firstPatternMatch : List (Str → Option (Str × Str)) → Str → Option Str
  | [], _ => none
  | m :: rest, text =>
    match scanAll m (text.length + 1) text with
    | [] => firstPatternMatch rest text
    | g :: _ => some g

/-- Embeds `detect_arabic_entities` (arabic_nlp_helpers.py lines 62-157). -/
def detect_arabic_entities (text : Str) : Entities :=
  { loc := saudiCities.filter (fun c => strContains text c) ++
           riyadhNeighborhoods.filter (fun n => strContains text n),
    property_type := detectPropertyTypes.filter (fun p => strContains text p),
    money := moneyFindAll moneyUnitsDetect text,
    person := (personFromPatterns [str "اسمي ", str "انا "] text).map Value.vstr,
    bedrooms := firstPatternMatch
      [digitsThenLit (str "غرف") (some 'ة'), digitsThenLit (str "bed") none] text,
    bathrooms := firstPatternMatch
      [digitsThenLit (str "حمام") none, digitsThenLit (str "bath") none] text,
    area := firstPatternMatch
      [litThenDigits (str "مساحة"), digitsThenLit (str "متر") none,
       digitsThenLit (str "م") none] text,
    number := [],
    feature := [] }

/-- Location pattern literals of rule_based_entity_extraction. -/
def ruleLocPatterns : List Str :=
  [str "في ", str "منطقة ", str "حي ", str "مدينة "]

/-- Property types probed by rule_based_entity_extraction, in list order. -/
def rulePropertyTypes : List Str :=
  [str "شقة", str "فيلا", str "منزل", str "دوبلكس", str "استوديو",
   str "بنتهاوس", str "مكتب", str "محل"]

/-- Feature gazetteer of rule_based_entity_extraction. -/
def ruleFeatures : List Str :=
  [str "حديقة", str "مسبح", str "تكييف", str "مفروش", str "مطبخ",
   str "شرفة", str "موقف", str "جراج", str "مصعد", str "أمن"]

/-- Embeds `rule_based_entity_extraction` (text_processing.py lines 31-79). -/
def rule_based_entity_extraction (text : Str) : Entities :=
  let locs := ruleLocPatterns.foldl
    (fun acc lit => acc ++
      (((scanAll (litLazyMatchAt lit termDotCommaEndSpaceWord) (text.length + 1) text).map
        pyStrip).filter (fun m => m.length > 2))) []
  let persons := [str "اسمي ", str "أنا "].foldl
    (fun acc lit => acc ++
      (((scanAll (litLazyMatchAt lit termDotCommaEndSpaceWord) (text.length + 1) text).map
        pyStrip).filter (fun m => m.length > 2))) []
  { loc := locs,
    property_type := rulePropertyTypes.filter (fun p => strContains text p),
    money := moneyFindAll moneyUnitsRule text,
    person := if persons.isEmpty then none else some (Value.vlist persons),
    bedrooms := none, bathrooms := none, area := none,
    number := numberRuns none text,
    feature := ruleFeatures.filter (fun f => strContains text f) }

/-- Embeds `extract_entities` (text_processing.py lines 22-29): normalize, run
the gazetteer pass, and only when it found nothing run the broader rule-based
pass instead. -/
def extract_entities (text : Str) : Entities :=
  let normalized := normalize_arabic_text text
  let e := detect_arabic_entities normalized
  if e.isEmpty then rule_based_entity_extraction normalized else e

/-- Embeds `extract_preferences` (text_processing.py lines 142-156). -/
def extract_preferences (text : Str) : Info :=
  let entities := extract_entities text
  let p0 : Info := []
  let p1 := match entities.loc with
    | l :: _ => p0.set "location" (.vstr l)
    | [] => p0
  let p2 := match entities.money with
    | m :: _ => p1.set "budget" (.vstr m)
    | [] => p1
  let p3 := match entities.property_type with
    | t :: _ => p2.set "property_type" (.vstr t)
    | [] => p2
  let p4 :=
    if !entities.number.isEmpty &&
       (strContains text (str "غرف") || strContains text (str "غرفة")) then
      match entities.number with
      | n :: _ => p3.set "bedrooms" (.vstr n)
      | [] => p3
    else p3
  if !entities.feature.isEmpty then p4.set "features" (.vlist entities.feature) else p4

/-! ## Sentiment analysis (arabic_nlp_helpers.py lines 159-215) -/

/-- The positive sentiment lexicon. -/
def positiveWords : List Str :=
  [str "جيد", str "رائع", str "ممتاز", str "جميل", str "مناسب", str "موافق",
   str "أعجبني", str "أحب", str "سعيد", str "فرح", str "حلو", str "لطيف",
   str "مفيد", str "ناجح", str "مريح", str "ملائم", str "إيجابي", str "فعال",
   str "مثالي", str "متميز", str "نعم", str "أوافق", str "تمام", str "مهتم",
   str "أرغب", str "ممكن", str "معقول", str "مربح", str "اشتري", str "أختار"]

/-- The negative sentiment lexicon. -/
def negativeWords : List Str :=
  [str "سيء", str "ردئ", str "غالي", str "بعيد", str "صغير", str "مشكلة",
   str "لا أحب", str "لا أريد", str "غير مناسب", str "صعب", str "معقد",
   str "قبيح", str "مزعج", str "غير مريح", str "سلبي", str "فاشل", str "ضعيف",
   str "باهظ", str "لا", str "غير", str "رفض", str "محبط", str "خائب",
   str "غاضب", str "لا أوافق", str "لا يناسب", str "مرتفع", str "غير معقول",
   str "بطيء", str "متعب", str "مرهق"]

/-- The negation markers of the sentiment negation pass. -/
def negationWords : List Str :=
  [str "لا", str "ليس", str "غير", str "ما", str "لم", str "لن"]

/-- Embeds `analyze_arabic_sentiment`: count lexicon hits on the normalized
text, then for every (negation, lexicon-word) pair whose bigram or
concatenation occurs, move one unit across the tallies; label by the final
majority.  The counts are integers and may go negative, as in the source. -/
def analyze_arabic_sentiment (text0 : Str) : String :=
  let text := normalize_arabic_text text0
  let positive0 : Int := ((positiveWords.filter (fun w => strContains text w)).length : Int)
  let negative0 : Int := ((negativeWords.filter (fun w => strContains text w)).length : Int)
  let kPos : Int := ((negationWords.map (fun n => positiveWords.countP
    (fun p => strContains text (n ++ ' ' :: p) || strContains text (n ++ p)))).sum : Int)
  let kNeg : Int := ((negationWords.map (fun n => negativeWords.countP
    (fun w => strContains text (n ++ ' ' :: w) || strContains text (n ++ w)))).sum : Int)
  let positiveCount := positive0 - kPos + kNeg
  let negativeCount := negative0 + kPos - kNeg
  if positiveCount > negativeCount then "positive"
  else if negativeCount > positiveCount then "negative"
  else "neutral"

/-! ## Intent analysis (arabic_nlp_helpers.py lines 217-266) -/

/-- Word-boundary test (`\b`) between two optional adjacent characters. -/
def isBoundary (a b : Option Char) : Bool :=
  (match a with | some c => isWordChar c | none => false) !=
  (match b with | some c => isWordChar c | none => false)

/-- Whether the literal pattern matches at the start of `s`, with word
boundaries on both sides; `prev` is the character just before `s`. -/
def wbAt (pat : Str) (prev : Option Char) (s : Str) : Bool :=
  pat.isPrefixOf s &&
  isBoundary prev s.head? &&
  isBoundary pat.getLast? ((s.drop pat.length).head?)

/-- Embeds `re.search(r'\b' + pattern + r'\b', text)` for the literal intent
patterns. -/
def wbSearch (pat : Str) : Option Char → Str → Bool
  | prev, [] => wbAt pat prev []
  | prev, c :: rest => wbAt pat prev (c :: rest) || wbSearch pat (some c) rest

/-- The intent pattern table, in dict order; the first category with a
matching pattern wins. -/
def intentTable : List (String × List Str) :=
  [("inquiry", [str "هل", str "كم", str "متى", str "أين", str "ما هو", str "كيف",
                str "اريد ان اعرف", str "يمكنك اخباري", str "اخبرني عن"]),
   ("interest", [str "مهتم", str "أريد", str "أبحث", str "أفضل", str "يعجبني",
                 str "ابغى", str "عندي رغبة", str "عاجبني", str "حلو", str "يناسبني"]),
   ("objection", [str "لكن", str "غالي", str "بعيد", str "مشكلة", str "صغير",
                  str "كبير", str "لا أحب", str "لا يناسب", str "غير مناسب", str "صعب"]),
   ("ready", [str "مستعد", str "موافق", str "جاهز", str "أوافق", str "نعم",
              str "تمام", str "اشتري", str "أقبل", str "أتفق", str "حاضر"]),
   ("greeting", [str "مرحبا", str "السلام", str "أهلا", str "صباح", str "مساء",
                 str "كيف الحال", str "اهلين", str "مرحبتين"]),
   ("closing", [str "موعد", str "زيارة", str "معاينة", str "اتصال", str "تواصل",
                str "رقم", str "هاتف", str "جوال", str "ايميل", str "بريد"])]

/-- Embeds `analyze_arabic_intent`: normalize, then return the first category
in table order with a word-boundary match, defaulting to general. -/
def analyze_arabic_intent (text0 : Str) : String :=
  let text := normalize_arabic_text text0
  match intentTable.find? (fun row => row.2.any (fun pat => wbSearch pat none text)) with
  | some row => row.1
  | none => "general"

/-! ## text_processing.py wrappers (lines 81-129) -/

/-- The enhanced fallback intent table of `analyze_intent`
(text_processing.py lines 90-102), probed by plain substring search. -/
def fallbackIntentTable : List (String × List Str) :=
  [("inquiry", [str "هل", str "كم", str "متى", str "أين", str "ما هو", str "كيف"]),
   ("interest", [str "مهتم", str "أريد", str "أبحث", str "أفضل", str "يعجبني"]),
   ("objection", [str "لكن", str "غالي", str "بعيد", str "صغير", str "لا أحب",
                  str "مشكلة", str "مش مناسب"]),
   ("ready", [str "مستعد", str "موافق", str "جاهز", str "أوافق", str "نعم",
              str "تمام", str "أكيد", str "أيوه", str "اوكي", str "تمام كده",
              str "طبعاً"]),
   ("rejection", [str "لا", str "مش حابب", str "مش عاجبني", str "مش مناسب",
                  str "ما عجبنيش"]),
   ("greeting", [str "مرحبا", str "السلام", str "أهلا", str "صباح", str "مساء"])]

/-- Embeds `analyze_intent` (text_processing.py lines 81-109): delegate to
the helper classifier and only fall back to the enhanced table when it
returns a falsy label. -/
def analyze_intent (text : Str) : String :=
  let normalized := normalize_arabic_text text
  let intent := analyze_arabic_intent normalized
  if intent ≠ "" then intent
  else
    match fallbackIntentTable.find?
        (fun row => row.2.any (fun pat => strContains normalized pat)) with
    | some row => row.1
    | none => "general"

/-- Fallback positive lexicon of `analyze_sentiment` (text_processing.py). -/
def fallbackPositiveWords : List Str :=
  [str "جيد", str "رائع", str "ممتاز", str "أحب", str "أعجبني", str "جميل",
   str "مناسب", str "موافق", str "تمام", str "أيوه"]

/-- Fallback negative lexicon of `analyze_sentiment` (text_processing.py). -/
def fallbackNegativeWords : List Str :=
  [str "سيء", str "غالي", str "بعيد", str "مشكلة", str "لا أحب",
   str "غير مناسب", str "مش عاجبني", str "مش حلو", str "رفض"]

/-- Embeds `analyze_sentiment` (text_processing.py lines 111-129). -/
def analyze_sentiment (text : Str) : String :=
  let normalized := normalize_arabic_text text
  let sentiment := analyze_arabic_sentiment normalized
  if sentiment ≠ "" then sentiment
  else
    let pc := fallbackPositiveWords.countP (fun w => strContains normalized w)
    let nc := fallbackNegativeWords.countP (fun w => strContains normalized w)
    if pc > nc then "positive" else if nc > pc then "negative" else "neutral"

/-! ## Stemming (arabic_nlp_helpers.py lines 308-333) -/

/-- The recognized prefixes, in the source's list order. -/
def stemPrefixList : List Str :=
  [str "ال", str "و", str "ف", str "ب", str "ل", str "لل", str "وال",
   str "فال", str "بال", str "كال"]

/-- The recognized suffixes, in the source's list order. -/
def stemSuffixList : List Str :=
  [str "ون", str "ات", str "ين", str "ان", str "تي", str "تن", str "كن",
   str "هن", str "نا", str "ها", str "ية"]

/-- The prefix loop of `stem_arabic_word`: strip the first prefix of the list
that matches, then stop. -/
def stripFirstPre : List Str → Str → Str
  | [], w => w
  | p :: ps, w => if p.isPrefixOf w then w.drop p.length else stripFirstPre ps w

/-- The suffix loop of `stem_arabic_word`: strip the first suffix of the list
that matches and leaves more than two characters, then stop. -/
def stripFirstSuf : List Str → Str → Str
  | [], w => w
  | s :: ss, w =>
    if s.isSuffixOf w && decide (w.length > s.length + 2) then
      w.take (w.length - s.length)
    else stripFirstSuf ss w

/-- Embeds `stem_arabic_word`. -/
def stem_arabic_word (w : Str) : Str :=
  stripFirstSuf stemSuffixList (stripFirstPre stemPrefixList w)

/-! ## Conversation phases (config.py lines 41-48) -/

/-- The seven conversation phases, in enum order. -/
inductive Phase where
  | DISCOVERY | SUMMARY | SUGGESTION | PERSUASION | ALTERNATIVE | URGENCY | CLOSING
deriving DecidableEq

/-- The list of phases in enum order (`list(ConversationPhase)`). -/
def phaseList : List Phase :=
  [.DISCOVERY, .SUMMARY, .SUGGESTION, .PERSUASION, .ALTERNATIVE, .URGENCY, .CLOSING]

/-- `phase_list.index(current_phase)`. -/
def phaseIdx : Phase → Nat
  | .DISCOVERY => 0 | .SUMMARY => 1 | .SUGGESTION => 2 | .PERSUASION => 3
  | .ALTERNATIVE => 4 | .URGENCY => 5 | .CLOSING => 6

/-- Embeds `Reasoning._get_previous_phase` (reasoning.py lines 212-215):
`phase_list[max(0, idx - 1)]` (natural subtraction clamps at the first
phase). -/
def get_previous_phase (p : Phase) : Phase :=
  phaseList.getD (phaseIdx p - 1) .DISCOVERY

/-! ## Phase transition rules (reasoning.py lines 27-72, 152-187) -/

/-- A declarative transition condition; the five keyword condition kinds
(confirmation, property_selection, objection, interest, intent_to_proceed)
share one evaluation rule in the source and are kept as one constructor
tagged with the kind name. -/
inductive Condition where
  | information_complete (fields : List String)
  | message_count (min_count : Nat)
  | keyword_any (ctype : String) (keywords : List Str)
  | information_provided (fields : List String)
deriving DecidableEq

/-- Embeds `Reasoning._init_phase_transition_rules`: the conditions and the
configured next phase of each phase. -/
def phase_transition_rules : Phase → List Condition × Option Phase
  | .DISCOVERY =>
    ([.information_complete ["location", "budget", "property_type"],
      .message_count 1], some .SUMMARY)
  | .SUMMARY =>
    ([.keyword_any "confirmation"
        [str "نعم", str "صحيح", str "موافق", str "تمام"]], some .SUGGESTION)
  | .SUGGESTION =>
    ([.keyword_any "property_selection"
        [str "أعجبني", str "مهتم", str "رائع", str "جيد", str "تمام",
         str "أيوه", str "موافق"]], some .PERSUASION)
  | .PERSUASION =>
    ([.keyword_any "objection"
        [str "لكن", str "مشكلة", str "قلق", str "لا أحب", str "غالي"]],
     some .ALTERNATIVE)
  | .ALTERNATIVE =>
    ([.keyword_any "interest"
        [str "مهتم", str "جيد", str "أفضل", str "يعجبني"]], some .URGENCY)
  | .URGENCY =>
    ([.keyword_any "intent_to_proceed"
        [str "أريد", str "الآن", str "متى", str "كيف", str "إجراءات"]],
     some .CLOSING)
  | .CLOSING =>
    ([.information_provided ["contact_name", "phone_number"]], none)

/-- Embeds the condition checks inside `Reasoning._check_phase_transition`:
information_complete tests the union of the context profile and this turn's
extracted delta, message_count compares the history length with twice the
minimum, keyword conditions test substrings of the lower-cased message, and
information_provided tests the extracted delta alone. -/
def evalCondition (c : Condition) (message : Str) (extracted : Info)
    (histLen : Nat) (ctxUser : Info) : Bool :=
  match c with
  | .information_complete fields =>
    fields.all (fun f => truthyOpt ((Info.update ctxUser extracted).lookup f))
  | .message_count m => decide (histLen ≥ m * 2)
  | .keyword_any _ kws => kws.any (fun k => strContains (message.map pyLower) k)
  | .information_provided fields =>
    fields.all (fun f => truthyOpt (extracted.lookup f))

/-- Embeds `Reasoning._check_phase_transition` (reasoning.py lines 152-187):
when all conditions of the current phase hold and the configured next phase
differs from the current phase, report the transition; otherwise report
(False, None). -/
def check_phase_transition (p : Phase) (message : Str) (extracted : Info)
    (histLen : Nat) (ctxUser : Info) : Bool × Option Phase :=
  let rules := phase_transition_rules p
  if (rules.1.all (fun c => evalCondition c message extracted histLen ctxUser) = true)
      ∧ rules.2 ≠ some p then
    (true, rules.2)
  else (false, none)

/-! ## CLOSING-phase contact extraction (reasoning.py lines 139-147) -/

/-- The separator class `[-.\s]` of the phone regex. -/
def phoneSep (c : Char) : Bool := c = '-' || c = '.' || pySpace c

/-- Exactly `n` digits at the front; returns the rest. -/
def exactDigits (n : Nat) (l : Str) : Option Str :=
  if (l.take n).length = n ∧ (l.take n).all Char.isDigit then some (l.drop n) else none

/-- First alternative (in backtracking preference order) on which the
continuation succeeds. -/
def firstSome (f : Str → Option α) : List Str → Option α
  | [] => none
  | x :: xs =>
    match f x with
    | some a => some a
    | none => firstSome f xs

/-- Greedy optional single character: try consuming it first. -/
def optChar (p : Char → Bool) (l : Str) : List Str :=
  match l with
  | c :: r => if p c then [r, l] else [l]
  | [] => [l]

/-- The mandatory tail `\(?\d{3}\)?[-.\s]?\d{3}[-.\s]?\d{4}` of the phone
regex; returns the remainder after the match. -/
def phoneCore (l : Str) : Option Str :=
  firstSome (fun l1 =>
    match exactDigits 3 l1 with
    | none => none
    | some l2 =>
      firstSome (fun l3 =>
        firstSome (fun l4 =>
          match exactDigits 3 l4 with
          | none => none
          | some l5 =>
            firstSome (fun l6 => exactDigits 4 l6) (optChar phoneSep l5))
          (optChar phoneSep l3))
        (optChar (fun c => c = ')') l2))
    (optChar (fun c => c = '(') l)

/-- The alternatives of the optional capture group `(\+?\d{1,3}[-.\s]?)?`, as
(group text, remainder) pairs in backtracking preference order, ending with
the group-absent option (whose group text is the empty string, as
`re.findall` reports for a non-participating group). -/
def phoneGroupAlts (l : Str) : List (Str × Str) :=
  let plusOpts : List (Str × Str) :=
    (match l with | '+' :: r => [([ '+' ], r)] | _ => []) ++ [([], l)]
  (plusOpts.foldr (fun pr acc =>
    (([3, 2, 1].filterMap (fun n =>
      match exactDigits n pr.2 with
      | some rest => some (pr.1 ++ pr.2.take n, rest)
      | none => none)).foldr (fun dg acc2 =>
        (match dg.2 with
         | c :: r => if phoneSep c then [(dg.1 ++ [c], r), dg] else [dg]
         | [] => [dg]) ++ acc2) []) ++ acc) []) ++ [([], l)]

/-- Try the phone-regex tail after each alternative of the optional group. -/
def phoneTryAlts : List (Str × Str) → Option (Str × Str)
  | [] => none
  | (g, l1) :: rest =>
    match phoneCore l1 with
    | some rem => some (g, rem)
    | none => phoneTryAlts rest

/-- Matcher for the full phone regex
`(\+?\d{1,3}[-.\s]?)?\(?\d{3}\)?[-.\s]?\d{3}[-.\s]?\d{4}`, returning the
capture group (possibly empty) and the remainder. -/
def phoneMatchAt (l : Str) : Option (Str × Str) :=
  phoneTryAlts (phoneGroupAlts l)

/-- All phone matches of the raw message (`re.findall` reports the capture
group of each). -/
def phoneFindAll (t : Str) : List Str := scanAll phoneMatchAt (t.length + 1) t

/-- The local-part class `[a-zA-Z0-9._%+-]` of the email regex. -/
def emailLocalChar (c : Char) : Bool :=
  c.isAlphanum || c = '.' || c = '_' || c = '%' || c = '+' || c = '-'

/-- The domain class `[a-zA-Z0-9.-]` of the email regex. -/
def emailDomainChar (c : Char) : Bool := c.isAlphanum || c = '.' || c = '-'

/-- Backtracking of `[a-zA-Z0-9.-]+\.[a-zA-Z]{2,}` inside the maximal domain
run: the largest split point with a dot followed by at least two letters;
returns the split point and the (greedy) letter run. -/
def emailDomainSplit (R : Str) : Option (Nat × Str) :=
  (List.range R.length).reverse.findSome? (fun k =>
    if 1 ≤ k ∧ R.getD k ' ' = '.' then
      let L := (R.drop (k + 1)).takeWhile Char.isAlpha
      if 2 ≤ L.length then some (k, L) else none
    else none)

/-- Matcher for the email regex
`[a-zA-Z0-9._%+-]+@[a-zA-Z0-9.-]+\.[a-zA-Z]{2,}`. -/
def emailMatchAt (l : Str) : Option (Str × Str) :=
  match l with
  | [] => none
  | c :: _ =>
    if emailLocalChar c then
      let locpart := l.takeWhile emailLocalChar
      match l.drop locpart.length with
      | '@' :: rest =>
        let R := rest.takeWhile emailDomainChar
        let afterR := rest.drop R.length
        match emailDomainSplit R with
        | some (k, L) =>
          some (locpart ++ '@' :: (R.take k ++ '.' :: L),
                (R.drop (k + 1 + L.length)) ++ afterR)
        | none => none
      | _ => none
    else none

/-- All email matches of the raw message. -/
def emailFindAll (t : Str) : List Str := scanAll emailMatchAt (t.length + 1) t

/-- Embeds the CLOSING branch of `Reasoning._extract_information`: contact
name from the entity extractor, phone and email from regexes over the raw
message. -/
def closing_extract (message : Str) : Info :=
  let entities := extract_entities message
  let i0 : Info := []
  let i1 := match entities.person with
    | some v => i0.set "contact_name" v
    | none => i0
  let i2 := match phoneFindAll message with
    | g :: _ => i1.set "phone_number" (.vstr g)
    | [] => i1
  match emailFindAll message with
  | e :: _ => i2.set "email" (.vstr e)
  | [] => i2

/-- Embeds `Reasoning._extract_information` (reasoning.py lines 131-150). -/
def extract_information (message : Str) (p : Phase) : Info :=
  match p with
  | .DISCOVERY => extract_preferences message
  | .CLOSING => closing_extract message
  | _ => []

/-! ## Reasoning.analyze (reasoning.py lines 74-129) -/

/-- The per-turn reasoning result; the human-readable trace string of
`_generate_reasoning` is not modelled (no caller consumes it). -/
structure ReasoningResult where
  extracted_info : Info
  intent : String
  sentiment : String
  should_change_phase : Bool
  next_phase : Option Phase
deriving DecidableEq

/-- The exact-match go-back override utterances. -/
def goBackUtterances : List Str :=
  [str "ارجع", str "ارجع خطوة", str "رجعني", str "عودة"]

/-- The exact-match confused override utterances. -/
def confusedUtterances : List Str :=
  [str "مش فاهم", str "مش واضح", str "غلط", str "مش مفهوم"]

/-- Embeds `Reasoning.analyze`: the two overrides short-circuit before any
extraction; otherwise extract phase-dependent information, classify intent
and sentiment, and evaluate the transition rules against the history length
and the context profile.  The source's `relevant_knowledge` parameter is
never read by the method and is dropped here; the returned dict's
`relevant_knowledge` entry is always the empty dict. -/
def analyze (message : Str) (current_phase : Phase)
    (conversation_history : List (Bool × Str)) (ctxUser : Info) : ReasoningResult :=
  if pyStrip message ∈ goBackUtterances then
    { extracted_info := [], intent := "fallback", sentiment := "neutral",
      should_change_phase := true,
      next_phase := some (get_previous_phase current_phase) }
  else if pyStrip message ∈ confusedUtterances then
    { extracted_info := [], intent := "confused", sentiment := "neutral",
      should_change_phase := false, next_phase := some current_phase }
  else
    let extracted := extract_information message current_phase
    let ck := check_phase_transition current_phase message extracted
      conversation_history.length ctxUser
    { extracted_info := extracted,
      intent := analyze_intent message,
      sentiment := analyze_sentiment message,
      should_change_phase := ck.1, next_phase := ck.2 }

/-! ## Knowledge base and retrieval (knowledge_base.py, retrieval.py) -/

/-- A listing record (one row of the injected properties table). -/
abbrev Listing := List (String × Str)

/-- Lookup in a listing record. -/
def alookup : List (String × Str) → String → Option Str
  | [], _ => none
  | (k, v) :: rest, key => if k = key then some v else alookup rest key

/-- Embeds the per-listing filter loop of `KnowledgeBase.get_properties`: a
filter key absent from the listing is skipped; a string filter is a
case-insensitive substring test; a list filter passes when any of its values
does; other value shapes fall through the isinstance checks and pass. -/
def listingMatches (filters : Info) (prop : Listing) : Bool :=
  filters.all (fun kv =>
    match alookup prop kv.1 with
    | none => true
    | some pv =>
      match kv.2 with
      | .vstr s => strContains (pv.map pyLower) (s.map pyLower)
      | .vlist vs => vs.any (fun v => strContains (pv.map pyLower) (v.map pyLower))
      | .vprop _ => true)

/-- The scan loop of `get_properties`: append each match and stop as soon as
the match count reaches the limit (the count test runs after each listing,
matching or not). -/
def get_properties_aux (filters : Info) (limit : Int) :
    List Listing → List Listing → List Listing
  | acc, [] => acc
  | acc, p :: rest =>
    let acc1 := if listingMatches filters p then acc ++ [p] else acc
    if (acc1.length : Int) ≥ limit then acc1
    else get_properties_aux filters limit acc1 rest

/-- Embeds `KnowledgeBase.get_properties` (knowledge_base.py lines 85-104). -/
def get_properties (properties : List Listing) (filters : Info) (limit : Int) :
    List Listing :=
  get_properties_aux filters limit [] properties

/-- Per-phase auxiliary content (injected mode). -/
structure PhaseKnowledge where
  suggested_questions : List Str := []
  confirmation_phrases : List Str := []
  call_to_action : Option Str := none
deriving DecidableEq

/-- Embeds `KnowledgeBase._build_phase_knowledge_from_json` combined with
`get_phase_knowledge` (lookup by lower-cased phase name, empty mapping when
absent), for the injected-data mode the agent runs in. -/
def get_phase_knowledge : Phase → PhaseKnowledge
  | .DISCOVERY =>
    { suggested_questions :=
        [str "ايه نوع العقار اللي بتدور عليه؟", str "فين تحب يكون المكان؟",
         str "الميزانية تقريبا كام؟"] }
  | .SUMMARY => { confirmation_phrases := [str "تمام", str "مظبوط", str "موافق"] }
  | .SUGGESTION => { call_to_action := some (str "شوف العقارات دي وقلّي رأيك") }
  | _ => {}

/-- The retrieval result; an empty `relevant_properties` list models the
absent dict key (consumers read it with `.get(..., [])`). -/
structure RetrievalResult where
  phase_knowledge : PhaseKnowledge
  relevant_properties : List Listing := []
deriving DecidableEq

/-- The profile-slot to listing-column mapping of
`KnowledgeRetrieval._get_matching_properties`. -/
def filterMapping : List (String × String) :=
  [("location", "location"), ("property_type", "type"), ("budget", "price"),
   ("features", "features"), ("bedrooms", "bedrooms")]

/-- `",".join` over character lists. -/
def joinComma : List Str → Str
  | [] => []
  | [x] => x
  | x :: y :: rest => x ++ ',' :: joinComma (y :: rest)

/-- Matcher for the query location regex `في\s+([؀-ۿ\s]{2,})`: after the
literal, the greedy whitespace run and the greedy capture share one maximal
run of Arabic-or-space characters; backtracking hands spaces back to the
capture when fewer than two characters remain for it. -/
def queryLocMatcher (l : Str) : Option Str :=
  if (str "في").isPrefixOf l then
    let after := l.drop 2
    let P := after.takeWhile pySpace
    let U := after.takeWhile arabicOrSpace
    if 1 ≤ P.length ∧ 3 ≤ U.length then
      some (U.drop (min P.length (U.length - 2)))
    else none
  else none

/-- Matcher for the price-range regex `(\d[\d,]*)\s*-\s*(\d[\d,]*)`. -/
def priceRangeMatcher (l : Str) : Option (Str × Str) :=
  match l with
  | [] => none
  | c :: _ =>
    if c.isDigit then
      let g1 := l.takeWhile (fun d => d.isDigit || d = ',')
      let r1 := (l.dropWhile (fun d => d.isDigit || d = ',')).dropWhile pySpace
      match r1 with
      | '-' :: r2 =>
        let r3 := r2.dropWhile pySpace
        match r3 with
        | d :: _ =>
          if d.isDigit then some (g1, r3.takeWhile (fun e => e.isDigit || e = ','))
          else none
        | [] => none
      | _ => none
    else none

/-- Embeds `KnowledgeRetrieval._extract_filters_from_query`
(retrieval.py lines 58-85). -/
def extract_filters_from_query (query : Str) : Info :=
  let f0 : Info := []
  let f1 := match searchFirst queryLocMatcher query with
    | some g => f0.set "location" (.vstr (pyStrip g))
    | none => f0
  let f2 := match [str "شقة", str "فيلا", str "دوبلكس", str "استوديو",
      str "محل", str "مكتب"].find? (fun t => strContains query t) with
    | some t => f1.set "type" (.vstr t)
    | none => f1
  let f3 := match searchFirst priceRangeMatcher query with
    | some g => f2.set "price" (.vstr (g.1 ++ '-' :: g.2))
    | none => f2
  let feats := [str "مسبح", str "حديقة", str "شرفة", str "تكييف",
    str "مفروش", str "أمن"].filter (fun f => strContains query f)
  if feats.isEmpty then f3 else f3.set "features" (.vstr (joinComma feats))

/-- Embeds `KnowledgeRetrieval._get_matching_properties` (retrieval.py lines
35-56): profile-derived filters, overridden by query-derived ones, passed to
`get_properties` with the fixed cap of three. -/
def get_matching_properties (properties : List Listing) (query : Str)
    (ctxUser : Info) : List Listing :=
  let filters := filterMapping.foldl (fun acc m =>
    match Info.lookup ctxUser m.1 with
    | some v => if truthyValue v then Info.set acc m.2 v else acc
    | none => acc) []
  let filters := Info.update filters (extract_filters_from_query query)
  get_properties properties filters 3

/-- Embeds `KnowledgeRetrieval.retrieve` (retrieval.py lines 21-30). -/
def retrieve (properties : List Listing) (query : Str) (phase : Phase)
    (ctxUser : Info) : RetrievalResult :=
  { phase_knowledge := get_phase_knowledge phase,
    relevant_properties := get_matching_properties properties query ctxUser }

/-! ## The dialogue agent (agent.py) -/

/-- One rule of the budget-advice table. -/
structure RuleEntry where
  condition : String
  response : Str
deriving DecidableEq

/-- One rule of the feature-priority table. -/
structure PriorityEntry where
  feature : Str
  response : Str
deriving DecidableEq

/-- The injected rule tables of the knowledge base. -/
structure Rules where
  budget_advice : List RuleEntry := []
  property_priority : List PriorityEntry := []
deriving DecidableEq

/-- The agent's fixed collaborators: the injected listings table, the rule
tables, and the opaque generative fallback capability
(`generate_arabic_response`), modelled as an abstract function. -/
structure Env where
  properties : List Listing := []
  rules : Rules := {}
  gen : Str → Str := fun _ => []

/-- The mutable per-session agent state. -/
structure AgentState where
  current_phase : Phase := .DISCOVERY
  user_info : Info := []
  history : List (Bool × Str) := []
  selected_properties : List Listing := []
  last_mentioned_property : Option Listing := none
deriving DecidableEq

/-- The location gazetteer of `_basic_info_extraction`. -/
def agentLocations : List Str :=
  [str "القاهرة", str "الاسكندرية", str "الجيزة", str "المعادي", str "مدينة نصر",
   str "6 أكتوبر", str "التجمع", str "الشروق", str "العبور", str "الرحاب",
   str "مدينتي", str "الشيخ زايد", str "المهندسين", str "الدقي", str "الزمالك",
   str "وسط البلد", str "مصر الجديدة", str "حلوان"]

/-- The property-type table of `_basic_info_extraction`, in dict order. -/
def agentTypes : List (Str × List Str) :=
  [(str "شقة", [str "شقة", str "شقه", str "apartment"]),
   (str "فيلا", [str "فيلا", str "فيلات", str "villa"]),
   (str "دوبلكس", [str "دوبلكس", str "duplex"]),
   (str "ستوديو", [str "ستوديو", str "studio"]),
   (str "محل", [str "محل", str "محلات", str "shop"]),
   (str "مكتب", [str "مكتب", str "مكاتب", str "office"])]

/-- The unit alternatives of the agent budget regex, in pattern order. -/
def budgetUnits : List Str :=
  [str "جنيه", str "الف", str "مليون", str "k", str "m"]

/-- Matcher for the agent budget regex `(\d[\d,]*)\s*(جنيه|الف|مليون|k|m)` at
the current position, returning both capture groups.  No unit alternative
begins with a digit, comma or whitespace, so greedy matching needs no
backtracking. -/
def budgetMatchAt (l : Str) : Option (Str × Str) :=
  match l with
  | [] => none
  | c :: _ =>
    if c.isDigit then
      let digits := l.takeWhile (fun d => d.isDigit || d = ',')
      let rest1 := (l.dropWhile (fun d => d.isDigit || d = ',')).dropWhile pySpace
      match budgetUnits.find? (fun u => u.isPrefixOf rest1) with
      | some u => some (digits, u)
      | none => none
    else none

/-- The budget formatting of `_basic_info_extraction`: strip thousands
separators from the first group, then suffix by unit kind. -/
def formatBudget (amountRaw unit : Str) : Str :=
  let amount := amountRaw.filter (fun c => c ≠ ',')
  if unit = str "k" ∨ unit = str "الف" then amount ++ str " ألف جنيه"
  else if unit = str "m" ∨ unit = str "مليون" then amount ++ str " مليون جنيه"
  else amount ++ str " جنيه"

/-- The location loop of `_basic_info_extraction`: the first gazetteer entry
occurring in the message is stored unless a location is already present. -/
def basicLocStep (ui : Info) (message : Str) : Info :=
  if ui.hasKey "location" then ui
  else
    match agentLocations.find? (fun loc => strContains message loc) with
    | some loc => ui.set "location" (.vstr loc)
    | none => ui

/-- The budget step of `_basic_info_extraction`: the first regex match is
formatted and stored unless a budget is already present. -/
def basicBudgetStep (ui : Info) (message : Str) : Info :=
  match searchFirst budgetMatchAt message with
  | some g =>
    if ui.hasKey "budget" then ui
    else ui.set "budget" (.vstr (formatBudget g.1 g.2))
  | none => ui

/-- The property-type loop of `_basic_info_extraction`: the first type any of
whose keys occurs in the lower-cased message is stored unless a type is
already present (the inner break leaves the outer loop running, but the
presence guard blocks any further write). -/
def basicTypeStep (ui : Info) (message : Str) : Info :=
  if ui.hasKey "property_type" then ui
  else
    match agentTypes.findSome? (fun t =>
      if t.2.any (fun k => strContains (message.map pyLower) k) then some t.1
      else none) with
    | some prop => ui.set "property_type" (.vstr prop)
    | none => ui

/-- Embeds `RealEstateAgent._basic_info_extraction` (agent.py lines 126-163):
first-writer-wins detection of location, budget and property type. -/
def basic_info_extraction (ui : Info) (message : Str) : Info :=
  basicTypeStep (basicBudgetStep (basicLocStep ui message) message) message

/-- The vague back-reference words of `_is_reference_to_previous_property`. -/
def vagueWords : List Str :=
  [str "هي", str "ده", str "دي", str "العقار ده", str "العرض ده"]

/-- The complaint alternatives of the back-reference patterns. -/
def refTailWords : List Str :=
  [str "مش", str "ما عجبني", str "ما عجباني", str "ما عجبها"]

/-- Tail search for `.*(مش|ما عجبني|ما عجباني|ما عجبها)`: one alternative
occurs later with no newline in between (`.` does not match newlines). -/
def refTailSearch : Str → Bool
  | [] => false
  | c :: rest =>
    refTailWords.any (fun w => w.isPrefixOf (c :: rest)) ||
      (c != '\n' && refTailSearch rest)

/-- Search for one vague word followed by a complaint alternative. -/
def findWordThenTail (w : Str) : Str → Bool
  | [] => false
  | c :: rest =>
    (w.isPrefixOf (c :: rest) && refTailSearch ((c :: rest).drop w.length)) ||
      findWordThenTail w rest

/-- Embeds `RealEstateAgent._is_reference_to_previous_property`
(agent.py lines 165-168). -/
def is_reference_to_previous_property (msg : Str) : Bool :=
  vagueWords.any (fun w => findWordThenTail w (msg.map pyLower))

/-- First maximal digit run of a string (`re.findall(r'\d+', s)[0]`). -/
def firstDigitsRun : Str → Option Str
  | [] => none
  | c :: rest =>
    if c.isDigit then some (c :: rest.takeWhile Char.isDigit)
    else firstDigitsRun rest

/-- Python `int()` of a digit string. -/
def strToNat (s : Str) : Nat :=
  s.foldl (fun n c => n * 10 + (c.toNat - '0'.toNat)) 0

/-- Python `text.split('،')` (keeps empty pieces). -/
def splitOnChar (sep : Char) : Str → List Str
  | [] => [[]]
  | c :: rest =>
    if c = sep then [] :: splitOnChar sep rest
    else
      match splitOnChar sep rest with
      | w :: ws => (c :: w) :: ws
      | [] => [[c]]

/-- `sep.join(parts)` over character lists. -/
def joinWith (sep : Str) : List Str → Str
  | [] => []
  | [x] => x
  | x :: y :: rest => x ++ sep ++ joinWith sep (y :: rest)

/-- Embeds `RealEstateAgent._apply_rule_logic` (agent.py lines 170-197). -/
def apply_rule_logic (env : Env) (user_info : Info)
    (property_data : Option Listing) : List Str :=
  let budget_val := match user_info.lookup "budget" with
    | some (.vstr s) => s
    | _ => []
  let advice1 :=
    if strContains budget_val (str "مليون") then
      (env.rules.budget_advice.filter (fun r => r.condition = "budget_high")).map
        (fun r => r.response)
    else if strContains budget_val (str "ألف") then
      match firstDigitsRun budget_val with
      | some ds =>
        let cond := if strToNat ds < 500 then "budget_low" else "budget_mid"
        (env.rules.budget_advice.filter (fun r => r.condition = cond)).map
          (fun r => r.response)
      | none => []
    else []
  let featuresFromUser : List Str := match user_info.lookup "features" with
    | some (.vlist l) => l
    | some (.vstr s) => s.map (fun c => [c])
    | _ => []
  let features :=
    match property_data with
    | some pd =>
      if !pd.isEmpty ∧ (alookup pd "features").isSome then
        match alookup pd "features" with
        | some fs => (splitOnChar '،' fs).map pyStrip
        | none => []
      else featuresFromUser
    | none => featuresFromUser
  let advice2 := features.foldl (fun acc f =>
    acc ++ (env.rules.property_priority.filter
      (fun rule => strContains f rule.feature)).map (fun rule => rule.response)) advice1
  if advice2.isEmpty then [env.gen (str "قدم نصيحة ذكية عن شراء عقار")] else advice2

/-- Embeds `_discovery_response` (agent.py lines 222-231). -/
def discovery_response (user_info : Info) (knowledge : RetrievalResult) : Str :=
  let missing :=
    (if !truthyOpt (user_info.lookup "location") then [str "المكان"] else []) ++
    (if !truthyOpt (user_info.lookup "budget") then [str "الميزانية"] else []) ++
    (if !truthyOpt (user_info.lookup "property_type") then [str "نوع العقار"] else [])
  if !missing.isEmpty then
    let exampleText := match knowledge.phase_knowledge.suggested_questions with
      | s :: _ => '\n' :: (str "مثلاً: " ++ s)
      | [] => []
    str "ممكن تقولي " ++ joinWith (str ", ") missing ++
      str "؟ علشان أقدر أساعدك أكتر." ++ exampleText
  else str "تمام! كده أنا عرفت اللي محتاجه، نراجع المعلومات؟"

/-- The string rendering of a profile value in an f-string (only string
values reach the f-strings of the summary response). -/
def valueText : Option Value → Str
  | some (.vstr s) => s
  | _ => []

/-- Embeds `_summary_response` (agent.py lines 233-241). -/
def summary_response (env : Env) (user_info : Info) : Str :=
  let parts :=
    (if user_info.hasKey "location" then
      [str "📍 الموقع: " ++ valueText (user_info.lookup "location")] else []) ++
    (if user_info.hasKey "budget" then
      [str "💰 الميزانية: " ++ valueText (user_info.lookup "budget")] else []) ++
    (if user_info.hasKey "property_type" then
      [str "🏠 النوع: " ++ valueText (user_info.lookup "property_type")] else [])
  let advice := apply_rule_logic env user_info none
  str "دي المعلومات اللي جمعتها:\n" ++ joinWith (str "\n") parts ++
    (if !advice.isEmpty then str "\n\n ملاحظات:\n" ++ joinWith (str "\n") advice
     else []) ++
    str "\nهل الكلام ده مظبوط؟"

/-- Listing field access in the suggestion template (the listings of this
development always carry the accessed keys; Python would raise on a missing
key). -/
def getStr (prop : Listing) (k : String) : Str := (alookup prop k).getD []

/-- Embeds `_suggest_properties` (agent.py lines 243-258); returns the reply
together with the updated selected/last-mentioned listing state. -/
def suggest_properties (env : Env) (user_info : Info) (knowledge : RetrievalResult)
    (selected : List Listing) (last : Option Listing) :
    Str × List Listing × Option Listing :=
  match knowledge.relevant_properties with
  | [] => (env.gen (str "اقترح عقارات مناسبة حسب مواصفات العميل"), selected, last)
  | p :: ps =>
    let props := p :: ps
    let reply := props.foldl (fun acc prop =>
      acc ++ str "- " ++ getStr prop "type" ++ str " في " ++
        getStr prop "location" ++ str " بـ " ++ getStr prop "price" ++
        str " جنيه" ++ [ '\n' ]) (str "🏡 العقارات دي ممكن تعجبك:\n")
    let extras := apply_rule_logic env user_info (some p)
    let reply2 :=
      if !extras.isEmpty then reply ++ str "\n ملاحظات:\n" ++ joinWith (str "\n") extras
      else reply
    (reply2 ++ str "\nهل في واحد منهم شد انتباهك؟", props, some p)

/-- Embeds the PERSUASION branch of `_generate_response`: a templated reply
when `refers_to` holds a (truthy) listing dict, else the generative
fallback. -/
def persuasion_response (env : Env) (user_info : Info) (msg : Str) : Str :=
  match user_info.lookup "refers_to" with
  | some (.vprop referred) =>
    if !referred.isEmpty then
      str "ليه مش عاجبك؟ ده فيه " ++ ((alookup referred "features").getD (str "مميزات")) ++
        str " وموقعه في " ++ ((alookup referred "location").getD (str "مكان ممتاز")) ++ str "."
    else env.gen msg
  | _ => env.gen msg

/-- Embeds `_generate_response` (agent.py lines 199-220); the trailing
default branch of the source is unreachable (all seven phases are handled). -/
def generate_response (env : Env) (phase : Phase) (user_info : Info) (msg : Str)
    (knowledge : RetrievalResult) (selected : List Listing) (last : Option Listing) :
    Str × List Listing × Option Listing :=
  match phase with
  | .DISCOVERY => (discovery_response user_info knowledge, selected, last)
  | .SUMMARY => (summary_response env user_info, selected, last)
  | .SUGGESTION => suggest_properties env user_info knowledge selected last
  | .PERSUASION => (persuasion_response env user_info msg, selected, last)
  | .ALTERNATIVE => (str "ممكن نعرض عليك اختيارات تانية قريبة من اللي بتحبّه.", selected, last)
  | .URGENCY => (str "الفرص دي مش بتستنى! تحب نكمل إجراءات المعاينة؟", selected, last)
  | .CLOSING => (str "تمام، ابعتلي اسمك ورقم تليفونك وهنكلمك في أقرب وقت.", selected, last)

/-- Embeds `RealEstateAgent.process_message` (agent.py lines 87-124): append
the user message to history, run the lightweight slot scanner, retrieve
knowledge, run reasoning, merge the extracted delta into the profile
(skipped when empty), resolve back-references, commit any phase change,
render the phase-specific reply and append it to history.  The caller's
opaque gradio `state` list, returned unmodified by the source, and the
write-only `self.context` mirror of the profile are not modelled. -/
def process_message (env : Env) (st : AgentState) (msg : Str) : Str × AgentState :=
  let hist1 := st.history ++ [(true, msg)]
  let ui1 := basic_info_extraction st.user_info msg
  let rk := retrieve env.properties msg st.current_phase ui1
  let rr := analyze msg st.current_phase hist1 ui1
  let ui2 := if rr.extracted_info.isEmpty then ui1 else Info.update ui1 rr.extracted_info
  let ui3 :=
    if is_reference_to_previous_property msg then
      ui2.set "refers_to"
        (match st.last_mentioned_property with
         | some p => if p.isEmpty then Value.vstr (str "غير واضح") else Value.vprop p
         | none => Value.vstr (str "غير واضح"))
    else ui2
  let phase1 :=
    match rr.next_phase with
    | some np => if np ≠ st.current_phase then np else st.current_phase
    | none => st.current_phase
  let rsl := generate_response env phase1 ui3 msg rk st.selected_properties
    st.last_mentioned_property
  (rsl.1,
   { current_phase := phase1, user_info := ui3,
     history := hist1 ++ [(false, rsl.1)],
     selected_properties := rsl.2.1,
     last_mentioned_property := rsl.2.2 })

/-! ## Claim-level predicates and demonstration data -/

/-- Claim-level reading of a transition condition (claim C1): information
completeness over the union of the context profile and this turn's extracted
delta, a history of at least `min_count * 2` entries, some keyword occurring
as a substring of the lower-cased message, and information provided in the
extracted delta alone. -/
def CondHolds (c : Condition) (message : Str) (extracted : Info)
    (histLen : Nat) (ctxUser : Info) : Prop :=
  match c with
  | .information_complete fields =>
    ∀ f ∈ fields, truthyOpt ((Info.update ctxUser extracted).lookup f) = true
  | .message_count m => m * 2 ≤ histLen
  | .keyword_any _ kws => ∃ k ∈ kws, k <:+: message.map pyLower
  | .information_provided fields =>
    ∀ f ∈ fields, truthyOpt (extracted.lookup f) = true

/-- Characters surviving the diacritics filter and fixed by the four letter
maps and the non-Arabic masking (closure property of the normalization
pipeline before whitespace collapsing). -/
def preClean (c : Char) : Bool :=
  !isDiacriticChar c && (mapAlef c == c) && (mapHamza c == c) &&
  (mapTeh c == c) && (mapYeh c == c) && keepChar c

/-- Characters that `normalize_arabic_text` can output: pre-clean and, when
whitespace, exactly the plain space produced by the collapsing step. -/
def cleanChar (c : Char) : Bool :=
  preClean c && (!pySpace c || c == ' ')

/-- Adjacent-character invariant of the collapsed output: no two whitespace
characters in a row. -/
def noTwoSpaces (a b : Char) : Prop :=
  pySpace a = false ∨ pySpace b = false

/-- An empty agent environment (no listings, no rules, a generative fallback
returning the empty reply). -/
def env0 : Env := {}

/-- A fresh agent state (DISCOVERY phase, empty profile and history). -/
def st0 : AgentState := {}

/-- A demonstration listing. -/
def demoListing : Listing :=
  [("type", str "شقة"), ("location", str "المعادي"), ("price", str "500000"),
   ("features", str "حديقة،مسبح")]

/-- An environment whose knowledge base holds the demonstration listing. -/
def envP : Env := { properties := [demoListing] }

/-- An agent state sitting in the PERSUASION phase. -/
def stPersuasion : AgentState := { current_phase := .PERSUASION }

/-- An agent state sitting in CLOSING after a turn extracted both contact
fields. -/
def stClosing : AgentState :=
  { current_phase := .CLOSING,
    user_info := [("contact_name", .vstr (str "احمد")),
                  ("phone_number", .vstr (str "0123456789"))],
    history := [(true, str "مرحبا"), (false, str "أهلا")] }

/-- The end-to-end discovery message of claim C3. -/
def msgC3 : Str := str "عايز شقة في المعادي بميزانية 500 الف"

/-- The six phases with a configured next phase. -/
def forwardPhases : List Phase :=
  [.DISCOVERY, .SUMMARY, .SUGGESTION, .PERSUASION, .ALTERNATIVE, .URGENCY]

/-! # Theorems -/

/-! ## Shared helper lemmas -/

theorem strContains_iff (hay needle : Str) :
    strContains hay needle = true ↔ needle <:+: hay := by
  induction hay with
  | nil =>
    rw [strContains]
    simp [List.infix_nil, List.isPrefixOf_iff_prefix, List.prefix_nil]
  | cons c t ih =>
    rw [strContains]
    simp only [Bool.or_eq_true, List.isPrefixOf_iff_prefix, ih,
      List.infix_cons_iff]

theorem Info.lookup_set_self (i : Info) (k : String) (v : Value) :
    (Info.set i k v).lookup k = some v := by
  induction i with
  | nil => simp [Info.set, Info.lookup]
  | cons kv rest ih =>
    by_cases h : kv.1 = k
    · simp [Info.set, h, Info.lookup]
    · simp [Info.set, h, Info.lookup, ih]

theorem Info.lookup_set_ne (i : Info) (k k' : String) (v : Value) (h : k' ≠ k) :
    (Info.set i k v).lookup k' = i.lookup k' := by
  induction i with
  | nil => simp [Info.set, Info.lookup, Ne.symm h]
  | cons kv rest ih =>
    obtain ⟨k1, v1⟩ := kv
    by_cases hk : k1 = k
    · have hne : ¬ k1 = k' := by rw [hk]; exact Ne.symm h
      simp [Info.set, hk, Info.lookup, hne, Ne.symm h]
    · simp [Info.set, hk, Info.lookup, ih]

/-! ## C4: sentiment of the negated positive «مش كويس» -/

/-- C4 counterexample: the classifier labels «مش كويس» neutral, not negative
as the claim states — «مش» is not among the recognized negation markers and
«كويس» is not in the positive lexicon, so no tally moves. -/
theorem C4_counterexample :
    analyze_sentiment (str "مش كويس") = "neutral" ∧
    analyze_sentiment (str "مش كويس") ≠ "negative" := by decide

/-- C4 amended: «مش كويس» classifies as neutral, because «مش» is not a
recognized negation marker and «كويس» is not in the positive lexicon; the
negation-adjustment pass does flip one unit for a recognized marker directly
followed by a lexicon word, so «ليس جيد» classifies as negative. -/
theorem C4_amended :
    analyze_sentiment (str "مش كويس") = "neutral"
    ∧ (str "مش") ∉ negationWords
    ∧ (str "كويس") ∉ positiveWords
    ∧ analyze_sentiment (str "ليس جيد") = "negative" := by decide

/-! ## C9: the stemmer's selection policy -/

/-- C9 counterexample: the prefix loop is list-order first-match, not
longest-match-first — on «والكتاب» both «و» and the longer «وال» apply, yet
the result keeps «ال», i.e. only «و» was stripped; a longest-match-first
stemmer would strip «وال» and (no suffix applying to the remainder) return
«كتاب». -/
theorem C9_counterexample :
    stem_arabic_word (str "والكتاب") = str "الكتاب"
    ∧ (str "وال") ∈ stemPrefixList
    ∧ (str "وال").isPrefixOf (str "والكتاب") = true
    ∧ stripFirstSuf stemSuffixList ((str "والكتاب").drop (str "وال").length)
        = str "كتاب"
    ∧ stem_arabic_word (str "والكتاب") ≠ str "كتاب" := by
  decide

/-! ## counterexample runs of the agent pipeline (C2, C3, C5, C6, C7) -/

/-- C2 counterexample: with the agent in CLOSING after both contact fields
were extracted, the go-back utterance moves the committed phase back to
URGENCY and the reasoning result's next_phase is URGENCY, not None — so not
every subsequent call keeps the phase CLOSING. -/
theorem C2_counterexample :
    (process_message env0 stClosing (str "ارجع")).2.current_phase = Phase.URGENCY
    ∧ (analyze (str "ارجع") .CLOSING (stClosing.history ++ [(true, str "ارجع")])
        (basic_info_extraction stClosing.user_info (str "ارجع"))).next_phase
      = some Phase.URGENCY := by decide

/-- C3 counterexample: processing the discovery message leaves the phase at
DISCOVERY within the same call (the history holds one entry, failing the
message_count condition), and the stored budget is the raw digit string
"500" (the reasoning merge overwrote the formatted value), not
"500 ألف جنيه". -/
theorem C3_counterexample :
    (process_message env0 st0 msgC3).2.current_phase = Phase.DISCOVERY
    ∧ (process_message env0 st0 msgC3).2.current_phase ≠ Phase.SUMMARY
    ∧ (process_message env0 st0 msgC3).2.user_info.lookup "budget"
        = some (.vstr (str "500"))
    ∧ (process_message env0 st0 msgC3).2.user_info.lookup "budget"
        ≠ some (.vstr (str "500 ألف جنيه")) := by decide

/-- C3 amended: the call extracts location المعادي and property type شقة and
stores budget "500" — the basic scanner first wrote "500 ألف جنيه" but the
DISCOVERY reasoning merge overwrote it with the raw MONEY digits — the
transition fires only on the next call: the same-call history length is 2
only after the reply is appended, so message_count fails during the call and
the phase advances to SUMMARY on the following process_message call. -/
theorem C3_amended :
    (process_message env0 st0 msgC3).2.user_info
      = [("location", .vstr (str "المعادي")), ("budget", .vstr (str "500")),
         ("property_type", .vstr (str "شقة"))]
    ∧ (process_message env0 st0 msgC3).2.current_phase = Phase.DISCOVERY
    ∧ (process_message env0 st0 msgC3).2.history.length = 2
    ∧ (process_message env0 (process_message env0 st0 msgC3).2
        (str "تمام")).2.current_phase = Phase.SUMMARY := by decide

/-- C5 counterexample: the budget set by the first turn ("500", after the
reasoning merge) is changed by the second turn's processing to "700", so a
later turn does overwrite a session's budget. -/
theorem C5_counterexample :
    (process_message env0 st0 (str "عندي 500 الف")).2.user_info.lookup "budget"
      = some (.vstr (str "500"))
    ∧ (process_message env0
        (process_message env0 st0 (str "عندي 500 الف")).2
        (str "عندي 700 الف")).2.user_info.lookup "budget"
      = some (.vstr (str "700")) := by decide

/-- C6 counterexample: the claim quantifies over every limit, but with
limit = 0 the post-append check lets the first matching listing through, so
get_properties returns one listing, more than the limit. -/
theorem C6_counterexample :
    get_properties [demoListing] [] 0 = [demoListing]
    ∧ ¬ ((get_properties [demoListing] [] 0).length ≤ 0) := by decide

/-- C7 counterexample: a go-back turn does not skip property retrieval —
process_message calls the retriever before reasoning, and on the forced move
from PERSUASION back to SUGGESTION the retrieved listing reaches the reply
state, updating last_mentioned_property. -/
theorem C7_counterexample :
    (process_message envP stPersuasion (str "ارجع")).2.current_phase
      = Phase.SUGGESTION
    ∧ (process_message envP stPersuasion (str "ارجع")).2.last_mentioned_property
      = some demoListing
    ∧ retrieve envP.properties (str "ارجع") stPersuasion.current_phase
        (basic_info_extraction stPersuasion.user_info (str "ارجع"))
      = { phase_knowledge := get_phase_knowledge .PERSUASION,
          relevant_properties := [demoListing] } := by decide

/-! ## C8: idempotence and diacritic-freeness of normalize_arabic_text -/

theorem mapAlef_out (c : Char) : mapAlef c = 'ا' ∨ mapAlef c = c := by
  unfold mapAlef; split
  · exact Or.inl rfl
  · exact Or.inr rfl

theorem mapHamza_out (c : Char) : mapHamza c = 'ء' ∨ mapHamza c = c := by
  unfold mapHamza; split
  · exact Or.inl rfl
  · exact Or.inr rfl

theorem mapTeh_out (c : Char) : mapTeh c = 'ه' ∨ mapTeh c = c := by
  unfold mapTeh; split
  · exact Or.inl rfl
  · exact Or.inr rfl

theorem mapYeh_out (c : Char) : mapYeh c = 'ي' ∨ mapYeh c = c := by
  unfold mapYeh; split
  · exact Or.inl rfl
  · exact Or.inr rfl

theorem normChar_preClean (d : Char) (hd : isDiacriticChar d = false) :
    preClean (normChar d) = true := by
  unfold normChar
  rcases mapAlef_out d with h1 | h1
  · rw [h1]; decide
  rw [h1]
  rcases mapHamza_out d with h2 | h2
  · rw [h2]; decide
  rw [h2]
  rcases mapTeh_out d with h3 | h3
  · rw [h3]; decide
  rw [h3]
  rcases mapYeh_out d with h4 | h4
  · rw [h4]; decide
  rw [h4]
  unfold maskChar
  by_cases hk : keepChar d = true
  · rw [if_pos hk]
    simp [preClean, hd, h1, h2, h3, h4, hk]
  · rw [if_neg hk]; decide

theorem squeeze_head : ∀ (c : Char) (rest : Str),
    (squeezeSpaces (c :: rest)).head? = some (if pySpace c then ' ' else c)
  | c, [] => by
    unfold squeezeSpaces
    by_cases h : pySpace c = true <;> simp [h]
  | c, c2 :: rest => by
    unfold squeezeSpaces
    by_cases h : pySpace c = true
    · by_cases h2 : pySpace c2 = true
      · rw [if_pos (by rw [h, h2]; rfl), squeeze_head c2 rest]
        simp [h, h2]
      · have h2' : pySpace c2 = false := by simpa using h2
        rw [if_neg (by simp [h2'])]
        simp
    · have h' : pySpace c = false := by simpa using h
      rw [if_neg (by simp [h'])]
      simp

theorem squeeze_mem : ∀ (l : Str) (x : Char), x ∈ squeezeSpaces l →
    x = ' ' ∨ (x ∈ l ∧ pySpace x = false)
  | [], x => by simp [squeezeSpaces]
  | [c], x => by
    unfold squeezeSpaces
    by_cases h : pySpace c = true
    · rw [if_pos h]
      intro hx
      simp at hx
      exact Or.inl hx
    · rw [if_neg h]
      intro hx
      simp at hx
      subst hx
      exact Or.inr ⟨List.mem_singleton_self _, by simpa using h⟩
  | c1 :: c2 :: rest, x => by
    unfold squeezeSpaces
    by_cases h : (pySpace c1 && pySpace c2) = true
    · rw [if_pos h]
      intro hx
      rcases squeeze_mem (c2 :: rest) x hx with h1 | ⟨h1, h2⟩
      · exact Or.inl h1
      · exact Or.inr ⟨List.mem_cons_of_mem _ h1, h2⟩
    · rw [if_neg h]
      intro hx
      rcases List.mem_cons.mp hx with h1 | h1
      · by_cases hc : pySpace c1 = true
        · rw [if_pos hc] at h1
          exact Or.inl h1
        · rw [if_neg hc] at h1
          subst h1
          exact Or.inr ⟨List.mem_cons_self _ _, by simpa using hc⟩
      · rcases squeeze_mem (c2 :: rest) x h1 with h2 | ⟨h2, h3⟩
        · exact Or.inl h2
        · exact Or.inr ⟨List.mem_cons_of_mem _ h2, h3⟩

theorem squeeze_chain : ∀ (l : Str), (squeezeSpaces l).Chain' noTwoSpaces
  | [] => by simp [squeezeSpaces]
  | [c] => by
    unfold squeezeSpaces
    by_cases h : pySpace c = true <;> simp [h]
  | c1 :: c2 :: rest => by
    unfold squeezeSpaces
    by_cases h : (pySpace c1 && pySpace c2) = true
    · rw [if_pos h]; exact squeeze_chain (c2 :: rest)
    · rw [if_neg h, List.chain'_cons']
      refine ⟨?_, squeeze_chain (c2 :: rest)⟩
      intro y hy
      rw [squeeze_head c2 rest] at hy
      simp only [Option.mem_def, Option.some.injEq] at hy
      subst hy
      unfold noTwoSpaces
      by_cases h1 : pySpace c1 = true
      · have h2 : pySpace c2 = false := by
          cases hc2 : pySpace c2
          · rfl
          · exact absurd (by rw [h1, hc2]; rfl) h
        rw [if_pos h1, if_neg (by simp [h2])]
        exact Or.inr h2
      · rw [if_neg h1]
        exact Or.inl (by simpa using h1)

theorem chain'_dropWhile {R : Char → Char → Prop} (p : Char → Bool) :
    ∀ (l : Str), l.Chain' R → (l.dropWhile p).Chain' R
  | [], h => by simp
  | c :: t, h => by
    rw [List.dropWhile_cons]
    split
    · exact chain'_dropWhile p t h.tail
    · exact h

theorem head?_dropWhile (p : Char → Bool) :
    ∀ (l : Str) (x : Char), (l.dropWhile p).head? = some x → p x = false
  | [], x => by simp
  | c :: t, x => by
    rw [List.dropWhile_cons]
    split
    · exact head?_dropWhile p t x
    · intro h
      simp only [List.head?_cons, Option.some.injEq] at h
      subst h
      rename_i hc
      simpa using hc

theorem pyStrip_subset (l : Str) : ∀ x ∈ pyStrip l, x ∈ l := by
  intro x hx
  unfold pyStrip at hx
  rw [List.mem_reverse] at hx
  have h1 := (List.dropWhile_sublist _).subset hx
  rw [List.mem_reverse] at h1
  exact (List.dropWhile_sublist _).subset h1

theorem chain'_pyStrip (l : Str) (h : l.Chain' noTwoSpaces) :
    (pyStrip l).Chain' noTwoSpaces := by
  unfold pyStrip
  rw [List.chain'_reverse]
  apply chain'_dropWhile
  rw [List.chain'_reverse]
  exact chain'_dropWhile _ _ h

theorem pyStrip_revhead (l : Str) (x : Char) :
    ((pyStrip l).reverse).head? = some x → pySpace x = false := by
  unfold pyStrip
  rw [List.reverse_reverse]
  exact head?_dropWhile pySpace _ x

theorem pyStrip_head (l : Str) (x : Char) :
    (pyStrip l).head? = some x → pySpace x = false := by
  unfold pyStrip
  intro hx
  rw [List.head?_reverse] at hx
  obtain ⟨pre, hpre⟩ :=
    List.dropWhile_suffix (l := (l.dropWhile pySpace).reverse) pySpace
  have hBne : ((l.dropWhile pySpace).reverse.dropWhile pySpace) ≠ [] := by
    intro hB
    rw [hB] at hx
    simp at hx
  have hlast : ((l.dropWhile pySpace).reverse).getLast? = some x := by
    rw [← hpre, List.getLast?_append_of_ne_nil _ hBne]
    exact hx
  rw [List.getLast?_reverse] at hlast
  exact head?_dropWhile pySpace l x hlast

theorem normalize_mem_clean (t : Str) :
    ∀ x ∈ normalize_arabic_text t, cleanChar x = true := by
  intro x hx
  unfold normalize_arabic_text at hx
  split at hx
  · simp at hx
  · have hx1 := pyStrip_subset _ _ hx
    rcases squeeze_mem _ _ hx1 with h1 | ⟨h1, h2⟩
    · subst h1; decide
    · rw [List.mem_map] at h1
      obtain ⟨d, hd, rfl⟩ := h1
      rw [List.mem_filter] at hd
      have hpc := normChar_preClean d (by simpa using hd.2)
      unfold cleanChar
      rw [hpc, h2]
      simp

theorem normalize_chain (t : Str) :
    (normalize_arabic_text t).Chain' noTwoSpaces := by
  unfold normalize_arabic_text
  split
  · simp
  · exact chain'_pyStrip _ (squeeze_chain _)

theorem normalize_head (t : Str) (x : Char) :
    (normalize_arabic_text t).head? = some x → pySpace x = false := by
  unfold normalize_arabic_text
  split
  · simp
  · exact pyStrip_head _ x

theorem normalize_revhead (t : Str) (x : Char) :
    ((normalize_arabic_text t).reverse).head? = some x → pySpace x = false := by
  unfold normalize_arabic_text
  split
  · simp
  · exact pyStrip_revhead _ x

theorem map_eq_self_of (f : Char → Char) (l : Str) (h : ∀ c ∈ l, f c = c) :
    l.map f = l := by
  rw [List.map_congr_left (f := f) (g := id) h, List.map_id]

theorem squeeze_eq_self : ∀ (l : Str),
    (∀ c ∈ l, pySpace c = true → c = ' ') → l.Chain' noTwoSpaces →
    squeezeSpaces l = l
  | [], _, _ => rfl
  | [c], h, _ => by
    unfold squeezeSpaces
    by_cases hc : pySpace c = true
    · rw [if_pos hc, h c (List.mem_singleton_self c) hc]
    · rw [if_neg hc]
  | c1 :: c2 :: rest, h, hch => by
    unfold squeezeSpaces
    have hg : ¬ ((pySpace c1 && pySpace c2) = true) := by
      rcases (List.chain'_cons.mp hch).1 with h1 | h1 <;> simp [h1]
    rw [if_neg hg]
    rw [squeeze_eq_self (c2 :: rest)
      (fun c hc hs => h c (List.mem_cons_of_mem _ hc) hs)
      (List.chain'_cons.mp hch).2]
    by_cases hc : pySpace c1 = true
    · rw [if_pos hc, h c1 (List.mem_cons_self _ _) hc]
    · rw [if_neg hc]

theorem dropWhile_eq_self_of_head (p : Char → Bool) (l : Str)
    (h : ∀ x, l.head? = some x → p x = false) : l.dropWhile p = l := by
  cases l with
  | nil => rfl
  | cons c t =>
    rw [List.dropWhile_cons, if_neg]
    simp [h c rfl]

theorem pyStrip_eq_self (l : Str)
    (h1 : ∀ x, l.head? = some x → pySpace x = false)
    (h2 : ∀ x, l.reverse.head? = some x → pySpace x = false) :
    pyStrip l = l := by
  unfold pyStrip
  rw [dropWhile_eq_self_of_head _ _ h1, dropWhile_eq_self_of_head _ _ h2,
    List.reverse_reverse]

theorem normalize_eq_self (u : Str)
    (hc : ∀ c ∈ u, cleanChar c = true)
    (hch : u.Chain' noTwoSpaces)
    (h1 : ∀ x, u.head? = some x → pySpace x = false)
    (h2 : ∀ x, u.reverse.head? = some x → pySpace x = false) :
    normalize_arabic_text u = u := by
  unfold normalize_arabic_text
  split
  · rename_i h; exact h.symm
  · have hsplit : ∀ c ∈ u, isDiacriticChar c = false ∧ mapAlef c = c ∧
        mapHamza c = c ∧ mapTeh c = c ∧ mapYeh c = c ∧ keepChar c = true ∧
        (pySpace c = false ∨ c = ' ') := by
      intro c hcm
      have := hc c hcm
      unfold cleanChar preClean at this
      simp only [Bool.and_eq_true, beq_iff_eq, Bool.not_eq_true',
        Bool.or_eq_true] at this
      exact ⟨this.1.1.1.1.1.1, this.1.1.1.1.1.2, this.1.1.1.1.2,
        this.1.1.1.2, this.1.1.2, this.1.2, this.2⟩
    have hfil : u.filter (fun c => !isDiacriticChar c) = u := by
      apply List.filter_eq_self.mpr
      intro a ha
      simp [(hsplit a ha).1]
    rw [hfil]
    have hmap : u.map normChar = u := by
      apply map_eq_self_of
      intro c hcm
      obtain ⟨_, ha, hh, ht, hy, hk, _⟩ := hsplit c hcm
      unfold normChar maskChar
      rw [ha, hh, ht, hy, if_pos hk]
    rw [hmap]
    rw [squeeze_eq_self u ?_ hch]
    · exact pyStrip_eq_self u h1 h2
    · intro c hcm hsp
      rcases (hsplit c hcm).2.2.2.2.2.2 with hf | hf
      · rw [hsp] at hf; cases hf
      · exact hf

/-- C8: `normalize_arabic_text` is idempotent, and its output contains no
Arabic diacritic code point (U+064B–U+065F, U+0670). -/
theorem C8_normalize_idempotent (t : Str) :
    normalize_arabic_text (normalize_arabic_text t) = normalize_arabic_text t
    ∧ (normalize_arabic_text t).all (fun c => !isDiacriticChar c) = true := by
  constructor
  · exact normalize_eq_self _ (normalize_mem_clean t) (normalize_chain t)
      (normalize_head t) (normalize_revhead t)
  · rw [List.all_eq_true]
    intro c hcm
    have := normalize_mem_clean t c hcm
    unfold cleanChar preClean at this
    simp only [Bool.and_eq_true] at this
    simpa using this.1.1.1.1.1.1

/-! ## C1: the phase transition table -/

theorem evalCondition_iff (c : Condition) (message : Str) (extracted : Info)
    (histLen : Nat) (ctxUser : Info) :
    evalCondition c message extracted histLen ctxUser = true ↔
      CondHolds c message extracted histLen ctxUser := by
  cases c with
  | information_complete fields =>
    simp [evalCondition, CondHolds, List.all_eq_true]
  | message_count m =>
    simp [evalCondition, CondHolds, ge_iff_le]
  | keyword_any ctype kws =>
    simp [evalCondition, CondHolds, List.any_eq_true, strContains_iff]
  | information_provided fields =>
    simp [evalCondition, CondHolds, List.all_eq_true]

theorem check_phase_transition_aux (p : Phase) (message : Str) (extracted : Info)
    (histLen : Nat) (ctxUser : Info)
    (hnext : (phase_transition_rules p).2 ≠ some p) :
    (check_phase_transition p message extracted histLen ctxUser
        = (true, (phase_transition_rules p).2)
      ↔ (∀ c ∈ (phase_transition_rules p).1,
          CondHolds c message extracted histLen ctxUser))
    ∧ ((∃ c ∈ (phase_transition_rules p).1,
          ¬ CondHolds c message extracted histLen ctxUser)
        → check_phase_transition p message extracted histLen ctxUser
          = (false, none)) := by
  by_cases hb : (phase_transition_rules p).1.all
      (fun c => evalCondition c message extracted histLen ctxUser) = true
  · have hcheck : check_phase_transition p message extracted histLen ctxUser
        = (true, (phase_transition_rules p).2) := by
      unfold check_phase_transition
      rw [if_pos ⟨hb, hnext⟩]
    have hall := List.all_eq_true.mp hb
    constructor
    · constructor
      · intro _ c hc
        exact (evalCondition_iff c message extracted histLen ctxUser).mp (hall c hc)
      · intro _
        exact hcheck
    · rintro ⟨c, hc, hnc⟩
      exact absurd ((evalCondition_iff c message extracted histLen ctxUser).mp
        (hall c hc)) hnc
  · have hcheck : check_phase_transition p message extracted histLen ctxUser
        = (false, none) := by
      unfold check_phase_transition
      rw [if_neg]
      rintro ⟨h1, _⟩
      exact hb h1
    constructor
    · rw [hcheck]
      constructor
      · intro h
        simp at h
      · intro hall
        exact absurd (List.all_eq_true.mpr (fun c hc =>
          (evalCondition_iff c message extracted histLen ctxUser).mpr (hall c hc))) hb
    · intro _
      exact hcheck

/-- C1: for every phase with a configured next phase (all but CLOSING),
`_check_phase_transition` returns (True, configured next phase) exactly when
every condition of the phase's rule holds — information_complete over the
union of the context profile and the extracted delta, message_count
requiring at least `min_count * 2` history entries, keyword conditions
requiring a keyword substring of the lower-cased message,
information_provided over the extracted delta alone — and returns
(False, None) whenever at least one condition fails. -/
theorem C1_check_phase_transition (p : Phase) (message : Str) (extracted : Info)
    (histLen : Nat) (ctxUser : Info) (hp : p ∈ forwardPhases) :
    (check_phase_transition p message extracted histLen ctxUser
        = (true, (phase_transition_rules p).2)
      ↔ (∀ c ∈ (phase_transition_rules p).1,
          CondHolds c message extracted histLen ctxUser))
    ∧ ((∃ c ∈ (phase_transition_rules p).1,
          ¬ CondHolds c message extracted histLen ctxUser)
        → check_phase_transition p message extracted histLen ctxUser
          = (false, none)) := by
  fin_cases hp <;>
    exact check_phase_transition_aux _ message extracted histLen ctxUser (by decide)

/-- Witness for C1 at the DISCOVERY phase with a complete profile and a long
enough history. -/
theorem C1_check_phase_transition_witness :
    Phase.DISCOVERY ∈ forwardPhases
    ∧ ((check_phase_transition .DISCOVERY (str "اهلا")
          [("location", .vstr (str "المعادي")), ("budget", .vstr (str "500")),
           ("property_type", .vstr (str "شقة"))] 2 []
        = (true, (phase_transition_rules .DISCOVERY).2)
      ↔ (∀ c ∈ (phase_transition_rules .DISCOVERY).1,
          CondHolds c (str "اهلا")
            [("location", .vstr (str "المعادي")), ("budget", .vstr (str "500")),
             ("property_type", .vstr (str "شقة"))] 2 []))
    ∧ ((∃ c ∈ (phase_transition_rules .DISCOVERY).1,
          ¬ CondHolds c (str "اهلا")
            [("location", .vstr (str "المعادي")), ("budget", .vstr (str "500")),
             ("property_type", .vstr (str "شقة"))] 2 [])
        → check_phase_transition .DISCOVERY (str "اهلا")
            [("location", .vstr (str "المعادي")), ("budget", .vstr (str "500")),
             ("property_type", .vstr (str "شقة"))] 2 []
          = (false, none))) :=
  ⟨by decide, C1_check_phase_transition .DISCOVERY (str "اهلا")
    [("location", .vstr (str "المعادي")), ("budget", .vstr (str "500")),
     ("property_type", .vstr (str "شقة"))] 2 [] (by decide)⟩

/-! ## C2 amended: terminal behaviour of CLOSING -/

/-- C2 amended: once in CLOSING, every turn whose stripped message is not a
go-back or confused override utterance yields next_phase = None from the
reasoning (CLOSING's rule has a null next phase) and leaves the committed
phase CLOSING — the machine never advances past CLOSING; only the go-back
override leaves CLOSING, moving backwards to URGENCY (see the
counterexample). -/
theorem C2_amended (env : Env) (st : AgentState) (msg : Str)
    (hphase : st.current_phase = .CLOSING)
    (hgb : pyStrip msg ∉ goBackUtterances)
    (hcf : pyStrip msg ∉ confusedUtterances) :
    (analyze msg st.current_phase (st.history ++ [(true, msg)])
        (basic_info_extraction st.user_info msg)).next_phase = none
    ∧ (process_message env st msg).2.current_phase = .CLOSING := by
  have hnp : (analyze msg st.current_phase (st.history ++ [(true, msg)])
      (basic_info_extraction st.user_info msg)).next_phase = none := by
    rw [hphase]
    unfold analyze
    rw [if_neg hgb, if_neg hcf]
    show (check_phase_transition .CLOSING msg _ _ _).2 = none
    unfold check_phase_transition
    dsimp only
    split <;> rfl
  refine ⟨hnp, ?_⟩
  simp only [process_message]
  rw [hnp]
  simpa using hphase

/-- Witness for C2 amended: a plain thanks message in CLOSING. -/
theorem C2_amended_witness :
    stClosing.current_phase = .CLOSING
    ∧ pyStrip (str "شكرا") ∉ goBackUtterances
    ∧ pyStrip (str "شكرا") ∉ confusedUtterances
    ∧ ((analyze (str "شكرا") stClosing.current_phase
          (stClosing.history ++ [(true, str "شكرا")])
          (basic_info_extraction stClosing.user_info (str "شكرا"))).next_phase = none
      ∧ (process_message env0 stClosing (str "شكرا")).2.current_phase = .CLOSING) :=
  ⟨rfl, by decide, by decide,
   C2_amended env0 stClosing (str "شكرا") rfl (by decide) (by decide)⟩

/-! ## C5 amended: budget policy of the basic scanner -/

theorem basicLocStep_lookup_budget (ui : Info) (msg : Str) :
    (basicLocStep ui msg).lookup "budget" = ui.lookup "budget" := by
  unfold basicLocStep
  split
  · rfl
  · split
    · exact Info.lookup_set_ne ui _ _ _ (by decide)
    · rfl

theorem basicTypeStep_lookup_budget (ui : Info) (msg : Str) :
    (basicTypeStep ui msg).lookup "budget" = ui.lookup "budget" := by
  unfold basicTypeStep
  split
  · rfl
  · split
    · exact Info.lookup_set_ne ui _ _ _ (by decide)
    · rfl

theorem basicBudgetStep_lookup_budget (ui : Info) (msg : Str) :
    (basicBudgetStep ui msg).lookup "budget" =
      (if (ui.lookup "budget").isSome then ui.lookup "budget"
       else (searchFirst budgetMatchAt msg).map
         (fun g => Value.vstr (formatBudget g.1 g.2))) := by
  unfold basicBudgetStep
  cases hs : searchFirst budgetMatchAt msg with
  | none =>
    cases hb : ui.lookup "budget" <;> simp [hb]
  | some g =>
    dsimp only
    unfold Info.hasKey
    cases hb : Info.lookup ui "budget" <;>
      simp [hb, Info.lookup_set_self]

/-- C5 amended: the claimed budget policy holds for the lightweight scanner
`_basic_info_extraction` — an existing budget is never changed by it, and a
missing budget is set from the leftmost digits-plus-unit match only, with
value "<digits> ألف جنيه" for unit الف/k, "<digits> مليون جنيه" for unit
مليون/m, and "<digits> جنيه" otherwise — but the session-level invariant of
the claim fails, because the DISCOVERY reasoning merge of process_message
overwrites user_info['budget'] with the raw digit string of the turn's first
MONEY entity (see the counterexample). -/
theorem C5_amended (ui : Info) (msg : Str) :
    (∀ v, ui.lookup "budget" = some v →
      (basic_info_extraction ui msg).lookup "budget" = some v)
    ∧ (ui.lookup "budget" = none →
      (basic_info_extraction ui msg).lookup "budget" =
        (searchFirst budgetMatchAt msg).map
          (fun g => Value.vstr (formatBudget g.1 g.2))) := by
  have hchain : (basic_info_extraction ui msg).lookup "budget" =
      (if (ui.lookup "budget").isSome then ui.lookup "budget"
       else (searchFirst budgetMatchAt msg).map
         (fun g => Value.vstr (formatBudget g.1 g.2))) := by
    unfold basic_info_extraction
    rw [basicTypeStep_lookup_budget, basicBudgetStep_lookup_budget,
      basicLocStep_lookup_budget]
  constructor
  · intro v hv
    rw [hchain, hv]
    simp
  · intro hv
    rw [hchain, hv]
    simp

/-- Witness for C5 amended: a profile with a budget keeps it; an empty
profile receives the formatted first match. -/
theorem C5_amended_witness :
    (([("budget", Value.vstr (str "قديم"))] : Info).lookup "budget"
        = some (.vstr (str "قديم")))
    ∧ (basic_info_extraction [("budget", .vstr (str "قديم"))]
        (str "عندي 700 الف")).lookup "budget" = some (.vstr (str "قديم"))
    ∧ (([] : Info).lookup "budget" = none)
    ∧ (basic_info_extraction [] (str "عندي 700 الف")).lookup "budget"
        = (searchFirst budgetMatchAt (str "عندي 700 الف")).map
            (fun g => Value.vstr (formatBudget g.1 g.2)) :=
  ⟨by decide,
   (C5_amended [("budget", .vstr (str "قديم"))] (str "عندي 700 الف")).1 _ (by decide),
   by decide,
   (C5_amended [] (str "عندي 700 الف")).2 (by decide)⟩

/-! ## C6 amended: retrieval scan and cap -/

theorem get_properties_aux_eq (filters : Info) (limit : Int) :
    ∀ (props acc : List Listing), (acc.length : Int) < limit →
    get_properties_aux filters limit acc props
      = acc ++ (props.filter (fun p => listingMatches filters p)).take
          (limit.toNat - acc.length) := by
  intro props
  induction props with
  | nil => intro acc _; simp [get_properties_aux]
  | cons p rest ih =>
    intro acc hacc
    simp only [get_properties_aux]
    by_cases hm : listingMatches filters p = true
    · rw [if_pos hm]
      by_cases hstop : ((acc ++ [p]).length : Int) ≥ limit
      · rw [if_pos hstop]
        have htake : limit.toNat - acc.length = 1 := by
          simp only [List.length_append, List.length_cons, List.length_nil] at hstop
          omega
        rw [List.filter_cons_of_pos hm, htake]
        simp
      · rw [if_neg hstop]
        have hlt : (((acc ++ [p]).length : Int)) < limit := not_le.mp hstop
        rw [ih (acc ++ [p]) hlt]
        rw [List.filter_cons_of_pos hm]
        have hsucc : limit.toNat - acc.length
            = (limit.toNat - (acc ++ [p]).length) + 1 := by
          simp only [List.length_append, List.length_cons, List.length_nil]
          simp only [List.length_append, List.length_cons, List.length_nil] at hstop
          omega
        rw [hsucc, List.take_succ_cons]
        simp
    · rw [if_neg hm]
      rw [if_neg (show ¬ ((acc.length : Int) ≥ limit) from not_le.mpr hacc)]
      rw [ih acc hacc, List.filter_cons_of_neg (by simp [hm])]

/-- C6 amended: for every positive limit, get_properties scans in storage
order and returns exactly the first `limit` listings passing the filter test
(key absent, or case-insensitive substring, any-of for list values), and
KnowledgeRetrieval always calls it with limit 3, so relevant_properties has
at most 3 items; for limit ≤ 0 the scan can instead return one listing (see
the counterexample). -/
theorem C6_amended (props : List Listing) (filters : Info) (limit : Int)
    (hl : 1 ≤ limit) (query : Str) (ctxUser : Info) :
    get_properties props filters limit
      = (props.filter (fun p => listingMatches filters p)).take limit.toNat
    ∧ (get_matching_properties props query ctxUser).length ≤ 3 := by
  have hmain : ∀ (ps : List Listing) (fl : Info) (li : Int), 1 ≤ li →
      get_properties ps fl li
        = (ps.filter (fun p => listingMatches fl p)).take li.toNat := by
    intro ps fl li hli
    unfold get_properties
    rw [get_properties_aux_eq fl li ps [] (by simpa using hli)]
    simp
  refine ⟨hmain props filters limit hl, ?_⟩
  unfold get_matching_properties
  rw [hmain _ _ 3 (by norm_num)]
  exact le_trans (List.length_take_le _ _) (by norm_num)

/-- Witness for C6 amended: an unfiltered scan of four listings with the cap
of three. -/
theorem C6_amended_witness :
    (1 : Int) ≤ 3
    ∧ (get_properties [demoListing, demoListing, demoListing, demoListing] [] 3
        = (([demoListing, demoListing, demoListing,
            demoListing].filter (fun p => listingMatches [] p)).take (3 : Int).toNat)
      ∧ (get_matching_properties [demoListing, demoListing, demoListing, demoListing]
          (str "اهلا") []).length ≤ 3) :=
  ⟨by decide,
   C6_amended [demoListing, demoListing, demoListing, demoListing] [] 3
     (by decide) (str "اهلا") []⟩

/-! ## C7 amended: the override branches of Reasoning.analyze -/

/-- C7 amended: both overrides behave as the claim states at the reasoning
level — an exact go-back utterance forces (True, previous phase in enum
order, clamped at DISCOVERY) and an exact confused utterance forces
(False, current phase), both with empty extracted_info, so the Reasoning
module's slot extraction is skipped for the turn — but property retrieval is
not skipped: process_message calls the retriever before reasoning on every
message (see the counterexample). -/
theorem C7_amended (msg : Str) (p : Phase) (hist : List (Bool × Str)) (ctx : Info) :
    (pyStrip msg ∈ goBackUtterances →
      analyze msg p hist ctx =
        { extracted_info := [], intent := "fallback", sentiment := "neutral",
          should_change_phase := true, next_phase := some (get_previous_phase p) })
    ∧ (pyStrip msg ∈ confusedUtterances →
      analyze msg p hist ctx =
        { extracted_info := [], intent := "confused", sentiment := "neutral",
          should_change_phase := false, next_phase := some p })
    ∧ get_previous_phase .DISCOVERY = .DISCOVERY := by
  refine ⟨fun h => ?_, fun h => ?_, rfl⟩
  · unfold analyze
    rw [if_pos h]
  · have hdisj : ∀ s ∈ confusedUtterances, s ∉ goBackUtterances := by decide
    unfold analyze
    rw [if_neg (hdisj _ h), if_pos h]

/-- Witness for C7 amended: the go-back utterance in the PERSUASION phase. -/
theorem C7_amended_witness :
    pyStrip (str "ارجع") ∈ goBackUtterances
    ∧ analyze (str "ارجع") .PERSUASION [] [] =
        { extracted_info := [], intent := "fallback", sentiment := "neutral",
          should_change_phase := true,
          next_phase := some (get_previous_phase .PERSUASION) } :=
  ⟨by decide, (C7_amended (str "ارجع") .PERSUASION [] []).1 (by decide)⟩

/-! ## C9 amended: decomposition of the stemmer -/

theorem stripFirstPre_decomp : ∀ (ps : List Str) (w : Str),
    ∃ pre : Str, (pre = [] ∨ pre ∈ ps) ∧ w = pre ++ stripFirstPre ps w
  | [], w => ⟨[], Or.inl rfl, rfl⟩
  | p :: ps, w => by
    unfold stripFirstPre
    by_cases h : p.isPrefixOf w = true
    · rw [if_pos h]
      obtain ⟨t, ht⟩ := List.isPrefixOf_iff_prefix.mp h
      refine ⟨p, Or.inr (List.mem_cons_self _ _), ?_⟩
      rw [← ht, List.drop_left]
    · rw [if_neg h]
      obtain ⟨pre, hp, hw⟩ := stripFirstPre_decomp ps w
      exact ⟨pre, hp.imp id (List.mem_cons_of_mem _), hw⟩

theorem stripFirstSuf_decomp : ∀ (ss : List Str) (w : Str),
    ∃ suf : Str,
      (suf = [] ∨ (suf ∈ ss ∧ 2 < (stripFirstSuf ss w).length)) ∧
      w = stripFirstSuf ss w ++ suf
  | [], w => ⟨[], Or.inl rfl, by simp [stripFirstSuf]⟩
  | s :: ss, w => by
    unfold stripFirstSuf
    by_cases h : (s.isSuffixOf w && decide (w.length > s.length + 2)) = true
    · rw [if_pos h]
      simp only [Bool.and_eq_true, decide_eq_true_eq] at h
      obtain ⟨t, ht⟩ := List.isSuffixOf_iff_suffix.mp h.1
      have hlen : w.length - s.length = t.length := by
        rw [← ht]; simp
      refine ⟨s, Or.inr ⟨List.mem_cons_self _ _, ?_⟩, ?_⟩
      · rw [hlen, ← ht, List.take_left]
        rw [← ht] at h
        simp at h
        omega
      · rw [hlen, ← ht, List.take_left]
    · rw [if_neg h]
      obtain ⟨suf, hs, hw⟩ := stripFirstSuf_decomp ss w
      refine ⟨suf, ?_, hw⟩
      exact hs.imp id (fun hx => ⟨List.mem_cons_of_mem _ hx.1, hx.2⟩)

/-- C9 amended: the stemmer strips at most one recognized prefix and then at
most one recognized suffix, removing a suffix only when more than two
characters remain; but the selection is first-match in the source's fixed
list order, not longest-match-first (the counterexample shows «و» shadowing
the longer applicable «وال»). -/
theorem C9_amended (w : Str) :
    ∃ pre suf : Str,
      (pre = [] ∨ pre ∈ stemPrefixList) ∧
      (suf = [] ∨ (suf ∈ stemSuffixList ∧ 2 < (stem_arabic_word w).length)) ∧
      w = pre ++ stem_arabic_word w ++ suf := by
  unfold stem_arabic_word
  obtain ⟨pre, hp, hw1⟩ := stripFirstPre_decomp stemPrefixList w
  obtain ⟨suf, hs, hw2⟩ := stripFirstSuf_decomp stemSuffixList
    (stripFirstPre stemPrefixList w)
  refine ⟨pre, suf, hp, hs, ?_⟩
  rw [List.append_assoc, ← hw2]
  exact hw1

/-! ## C10: the text_processing wrappers delegate unconditionally -/

theorem analyze_arabic_intent_mem (t : Str) :
    analyze_arabic_intent t ∈
      ["inquiry", "interest", "objection", "ready", "greeting", "closing",
       "general"] := by
  have hrows : ∀ r ∈ intentTable, r.1 ∈
      ["inquiry", "interest", "objection", "ready", "greeting", "closing",
       "general"] := by decide
  unfold analyze_arabic_intent
  dsimp only
  split
  · rename_i row hrow
    exact hrows row (List.mem_of_find?_eq_some hrow)
  · simp

theorem analyze_arabic_sentiment_mem (t : Str) :
    analyze_arabic_sentiment t ∈ ["positive", "negative", "neutral"] := by
  unfold analyze_arabic_sentiment
  dsimp only
  split
  · simp
  · split <;> simp

/-- C10: the wrappers return exactly the helper classifiers' labels on the
normalized text — the helpers always return a non-empty label, so the
enhanced fallback tables are unreachable and in particular the intent label
rejection is never returned. -/
theorem C10_wrappers_delegate (text : Str) :
    analyze_intent text = analyze_arabic_intent (normalize_arabic_text text)
    ∧ analyze_sentiment text = analyze_arabic_sentiment (normalize_arabic_text text)
    ∧ analyze_arabic_intent (normalize_arabic_text text) ≠ ""
    ∧ analyze_arabic_sentiment (normalize_arabic_text text) ≠ ""
    ∧ analyze_intent text ≠ "rejection" := by
  have hi := analyze_arabic_intent_mem (normalize_arabic_text text)
  have hs := analyze_arabic_sentiment_mem (normalize_arabic_text text)
  simp only [List.mem_cons, List.not_mem_nil, or_false] at hi hs
  have hine : analyze_arabic_intent (normalize_arabic_text text) ≠ "" := by
    rcases hi with h|h|h|h|h|h|h <;> rw [h] <;> decide
  have hsne : analyze_arabic_sentiment (normalize_arabic_text text) ≠ "" := by
    rcases hs with h|h|h <;> rw [h] <;> decide
  have hieq : analyze_intent text
      = analyze_arabic_intent (normalize_arabic_text text) := by
    unfold analyze_intent
    dsimp only
    rw [if_pos hine]
  have hseq : analyze_sentiment text
      = analyze_arabic_sentiment (normalize_arabic_text text) := by
    unfold analyze_sentiment
    dsimp only
    rw [if_pos hsne]
  refine ⟨hieq, hseq, hine, hsne, ?_⟩
  rw [hieq]
  rcases hi with h|h|h|h|h|h|h <;> rw [h] <;> decide

end RealEstate










